import Mathlib

/-!
Verification of the analysis-and-reporting pipeline of the bruniai visual-testing
CI tool, against its Python sources.

The Python data that flows through the pipeline consists of JSON-decoded values
(dicts, lists, strings, numbers, booleans, None).  We embed them shallowly as the
inductive type `JVal`; Python dicts become association lists (JSON decoding can
never produce a dict with duplicate keys, so replacing every binding of a key and
replacing the first binding coincide on all values that actually occur).

Sources embedded below:
  * src/analysis/vision.py        (status resolution, enum validation/repair)
  * src/reporter/report_generator.py (multi-page report assembly)
  * src/reporter/reporter.py      (chunked transport)
  * src/reporter/types.py         (PageReport field list)
  * src/github/pr_comments.py     (status aggregation, comment upsert protocol)
  * src/image_processing/diff.py  (pixel diff mask)
-/

/-- A JSON-decoded Python value: `None`, `str`, `int`, `bool`, `list`, `dict`. -/
inductive JVal where
  | jnull : JVal
  | jstr : String → JVal
  | jnum : Int → JVal
  | jbool : Bool → JVal
  | jarr : List JVal → JVal
  | jobj : List (String × JVal) → JVal

/-- An embedded Python dict: an association list with (in decoded data) unique keys. -/
abbrev JObj := List (String × JVal)

namespace JVal

/-- `d.get(k)` on a dict: the value of the first binding of `k`, if any. -/
def lookupKey (fields : JObj) (k : String) : Option JVal :=
  match fields with
  | [] => none
  | (k', v) :: rest => if k' = k then some v else lookupKey rest k

/-- `d.get(k, default)` on a dict. -/
def getKeyD (fields : JObj) (k : String) (d : JVal) : JVal :=
  (lookupKey fields k).getD d

/-- `d[k] = v` on a dict: overwrite the first binding of `k` in place (Python keeps
the key's insertion position), appending it if absent.  Decoded dicts have unique
keys, so "first binding" is "the binding". -/
def setKey : JObj → String → JVal → JObj
  | [], k, v => [(k, v)]
  | (k', v') :: rest, k, v =>
    if k' = k then (k, v) :: rest else (k', v') :: setKey rest k v

/-- Python `v == s` for a decoded value and a string literal: true exactly when
`v` is that string (a non-string never equals a string). -/
def isStr (v : JVal) (s : String) : Bool :=
  match v with
  | jstr t => t = s
  | _ => false

/-- Python truthiness of a decoded value (`bool(v)`). -/
def isTruthy : JVal → Bool
  | jnull => false
  | jstr s => s ≠ ""
  | jnum n => n ≠ 0
  | jbool b => b
  | jarr xs => ¬ xs.isEmpty
  | jobj fs => ¬ fs.isEmpty

@[simp] theorem lookupKey_nil (k : String) : lookupKey [] k = none := rfl

@[simp] theorem lookupKey_cons (k' : String) (v : JVal) (rest : JObj) (k : String) :
    lookupKey ((k', v) :: rest) k = if k' = k then some v else lookupKey rest k := rfl

/-- Setting a key then reading it back gives the written value. -/
theorem lookupKey_setKey_self (fields : JObj) (k : String) (v : JVal) :
    lookupKey (setKey fields k v) k = some v := by
  induction fields with
  | nil => simp [setKey, lookupKey]
  | cons kv rest ih =>
      obtain ⟨k₀, v₀⟩ := kv
      by_cases h₀ : k₀ = k <;> simp [setKey, lookupKey, h₀, ih]

/-- Setting one key leaves every other key's binding unchanged. -/
theorem lookupKey_setKey_ne (fields : JObj) (k k' : String) (v : JVal) (h : k' ≠ k) :
    lookupKey (setKey fields k v) k' = lookupKey fields k' := by
  induction fields with
  | nil => simp [setKey, lookupKey, Ne.symm h]
  | cons kv rest ih =>
      obtain ⟨k₀, v₀⟩ := kv
      by_cases h₀ : k₀ = k
      · subst h₀
        simp [setKey, lookupKey, Ne.symm h]
      · simp [setKey, lookupKey, h₀, ih]

theorem getKeyD_setKey_self (fields : JObj) (k : String) (v d : JVal) :
    getKeyD (setKey fields k v) k d = v := by
  simp [getKeyD, lookupKey_setKey_self]

theorem getKeyD_setKey_ne (fields : JObj) (k k' : String) (v d : JVal) (h : k' ≠ k) :
    getKeyD (setKey fields k v) k' d = getKeyD fields k' d := by
  simp [getKeyD, lookupKey_setKey_ne fields k k' v h]

/-- Python `repr(v)` of a decoded value, used by `str()` on containers.  (String
escaping inside the quotes is not reproduced; no analysed property depends on it.) -/
def pyRepr : JVal → String
  | jnull => "None"
  | jstr s => "'" ++ s ++ "'"
  | jnum n => toString n
  | jbool b => if b then "True" else "False"
  | jarr xs => "[" ++ String.intercalate ", " (xs.attach.map (fun x => pyRepr x.1)) ++ "]"
  | jobj fs =>
      "\x7b" ++
        String.intercalate ", "
          (fs.attach.map (fun kv => "'" ++ kv.1.1 ++ "': " ++ pyRepr kv.1.2)) ++
      "\x7d"
decreasing_by
  · have := List.sizeOf_lt_of_mem x.2
    simp only [JVal.jarr.sizeOf_spec]
    omega
  · have h1 := List.sizeOf_lt_of_mem kv.2
    have h2 : sizeOf kv.1.2 < sizeOf kv.1 := by
      obtain ⟨a, b⟩ := kv.1
      simp only [Prod.mk.sizeOf_spec]
      omega
    simp only [JVal.jobj.sizeOf_spec]
    omega

/-- Python `str(v)` of a decoded value: a string is itself, everything else its repr. -/
def pyStr : JVal → String
  | jstr s => s
  | v => pyRepr v

end JVal

/-- Python `needle in haystack` on strings: substring containment. -/
def strContainsSub (haystack needle : String) : Bool :=
  haystack.data.tails.any (fun t => needle.data.isPrefixOf t)

/-- Python `s.startswith(pfx)`. -/
def strStartsWith (s pfx : String) : Bool :=
  pfx.data.isPrefixOf s.data

/-- Python `s.lower()`, character by character (the inputs scanned by the code
are ASCII phrases, where this is exact). -/
def pyLower (s : String) : String :=
  String.mk (s.data.map Char.toLower)

namespace Vision

/-! ### src/analysis/vision.py -/

open JVal

/-- The emoji map at the end of `determine_status_from_visual_analysis`
(vision.py lines 51-57): `{"pass": "✅", "warning": "⚠️", "fail": "❌",
"none": "❓"}.get(status, "❓")`. -/
def statusEmojiOf (status : String) : String :=
  if status = "pass" then "✅"
  else if status = "warning" then "⚠️"
  else if status = "fail" then "❌"
  else if status = "none" then "❓"
  else "❓"

/-- vision.py lines 10-59, `determine_status_from_visual_analysis`.

The guard `if not visual_analysis or not isinstance(visual_analysis, dict)`
returns `("none", "❓")` for every non-dict input and for the empty dict
(an empty dict is falsy).  Consequently the `else` branch at lines 41-49
("Fallback for string-based analysis") is unreachable: every non-dict value has
already returned at line 21, so it is not part of this translation.  The dict
branch reads the three enum fields with the source's defaults and resolves
fail / warning / pass exactly as at lines 24-40. -/
def determine_status_from_visual_analysis (visual_analysis : JVal) : String × String :=
  match visual_analysis with
  | JVal.jobj fields =>
      if fields.isEmpty then ("none", "❓")
      else
        let critical_issues_enum := getKeyD fields "critical_issues_enum" (jstr "none")
        let status :=
          if ¬ isStr critical_issues_enum "none" then "fail"
          else
            let visual_changes_enum := getKeyD fields "visual_changes_enum" (jstr "none")
            let recommendation_enum := getKeyD fields "recommendation_enum" (jstr "pass")
            if isStr visual_changes_enum "significant" ∨
               isStr recommendation_enum "review_required" then "warning"
            else if isStr visual_changes_enum "minor" then "warning"
            else "pass"
        (status, statusEmojiOf status)
  | _ => ("none", "❓")

/-- The fixed enum vocabulary of `status_enum` (vision.py line 287). -/
def valid_status_enum : List String := ["pass", "fail", "warning", "none"]

/-- The fixed enum vocabulary of `critical_issues_enum` (vision.py line 288). -/
def valid_critical_issues_enum : List String := ["none", "missing_sections", "other_issues"]

/-- The fixed enum vocabulary of `visual_changes_enum` (vision.py line 289). -/
def valid_visual_changes_enum : List String := ["none", "minor", "significant"]

/-- The fixed enum vocabulary of `recommendation_enum` (vision.py line 290). -/
def valid_recommendation_enum : List String := ["pass", "review_required", "reject"]

/-- Python `v in values` for a decoded value and a list of string literals:
true exactly when `v` is one of those strings. -/
def enumMember (values : List String) (v : JVal) : Bool :=
  values.any (fun s => isStr v s)

/-- The caller-supplied / freshly generated metadata of vision.py lines 273-280:
`id` (a fresh uuid), the URLs, PR number, repository, the two `utcnow()`
timestamps and the optional `user_id`.  The generated values are inputs here. -/
structure AnalysisContext where
  id : String
  base_url : String
  preview_url : String
  pr_number : String
  repository : String
  timestamp : String
  created_at : String
  user_id : Option String

/-- vision.py lines 273-280: overwrite the metadata keys of the decoded response
with the actual values (never trusted from the oracle output). -/
def fillMetadata (ctx : AnalysisContext) (analysis_data : JObj) : JObj :=
  let d := setKey analysis_data "id" (jstr ctx.id)
  let d := setKey d "url" (jstr ctx.base_url)
  let d := setKey d "preview_url" (jstr ctx.preview_url)
  let d := setKey d "pr_number" (jstr ctx.pr_number)
  let d := setKey d "repository" (jstr ctx.repository)
  let d := setKey d "timestamp" (jstr ctx.timestamp)
  let d := setKey d "created_at" (jstr ctx.created_at)
  setKey d "user_id" (match ctx.user_id with | some u => jstr u | none => jnull)

/-- vision.py lines 282-284: `if "status_enum" in analysis_data:
analysis_data["status"] = analysis_data["status_enum"]`. -/
def mirrorStatus (d : JObj) : JObj :=
  match lookupKey d "status_enum" with
  | some v => setKey d "status" v
  | none => d

/-- vision.py lines 292-308: replace each of the four enum fields by its
documented default when the current value (`.get`, so `None` when absent) is not
in the field's vocabulary; an invalid `status_enum` also rewrites `status`. -/
def validateEnums (d : JObj) : JObj :=
  let d :=
    if ¬ enumMember valid_status_enum (getKeyD d "status_enum" jnull) then
      setKey (setKey d "status_enum" (jstr "warning")) "status" (jstr "warning")
    else d
  let d :=
    if ¬ enumMember valid_critical_issues_enum (getKeyD d "critical_issues_enum" jnull) then
      setKey d "critical_issues_enum" (jstr "other_issues")
    else d
  let d :=
    if ¬ enumMember valid_visual_changes_enum (getKeyD d "visual_changes_enum" jnull) then
      setKey d "visual_changes_enum" (jstr "minor")
    else d
  if ¬ enumMember valid_recommendation_enum (getKeyD d "recommendation_enum" jnull) then
    setKey d "recommendation_enum" (jstr "review_required")
  else d

/-- Python `for x in v`: lists yield their elements, strings their characters,
dicts their keys; anything else raises TypeError. -/
def pyIter : JVal → Except String (List JVal)
  | jarr xs => .ok xs
  | jstr s => .ok (s.data.map (fun c => jstr (String.singleton c)))
  | jobj fs => .ok (fs.map (fun kv => jstr kv.1))
  | _ => .error "TypeError: object is not iterable"

/-- vision.py line 314: `section.get('status') not in ['Present', 'Missing']`,
negated. -/
def validSectionStatus (v : JVal) : Bool :=
  enumMember ["Present", "Missing"] v

/-- vision.py lines 314-316 for one section dict: default an unrecognized
status to `'Present'`. -/
def fixSection (s : JObj) : JObj :=
  if ¬ validSectionStatus (getKeyD s "status" jnull) then
    setKey s "status" (jstr "Present")
  else s

/-- One iteration of the section loop: a non-dict element has no `.get` and
raises AttributeError. -/
def fixSectionVal : JVal → Except String JVal
  | jobj s => .ok (jobj (fixSection s))
  | _ => .error "AttributeError: object has no attribute get"

/-- vision.py lines 310-316: walk `analysis_data.get('critical_issues', {})
.get('sections', [])` and repair each section's status.  The Python loop mutates
the section dicts in place, so the repair is visible in `analysis_data` exactly
when the `critical_issues` → `sections` path exists in it; `.get` on a non-dict
raises AttributeError, and iterating a non-list iterable yields strings whose
`.get` raises AttributeError on the first element (an empty iterable just leaves
the data unchanged).  A raised exception propagates out of
`analyze_images_with_vision` (line 328), discarding the data. -/
def validateSections (d : JObj) : Except String JObj := do
  match getKeyD d "critical_issues" (jobj []) with
  | jobj cfs =>
      match getKeyD cfs "sections" (jarr []) with
      | jarr xs =>
          let fixed ← xs.mapM fixSectionVal
          if (lookupKey d "critical_issues").isSome ∧ (lookupKey cfs "sections").isSome then
            pure (setKey d "critical_issues" (jobj (setKey cfs "sections" (jarr fixed))))
          else
            pure d
      | other =>
          let elems ← pyIter other
          let _ ← elems.mapM fixSectionVal
          pure d
  | _ => .error "AttributeError: object has no attribute get"

/-- vision.py lines 270-319: everything `analyze_images_with_vision` does to a
successfully JSON-decoded response before returning it: metadata fill, legacy
`status` mirror, enum repair, section-status repair. -/
def processDecodedAnalysis (ctx : AnalysisContext) (analysis_data : JObj) : Except String JObj :=
  validateSections (validateEnums (mirrorStatus (fillMetadata ctx analysis_data)))

/-- The failure outcomes of `analyze_images_with_vision` after the oracle call.
`parseFailure` models vision.py lines 321-324: on `json.JSONDecodeError` the
function logs the decode error, logs the raw response text (`loggedRawResponse`,
line 323, the diagnostics trail of the failure), and raises
`Exception(f"Failed to parse AI response as JSON: ...")` (`raisedMessage`,
line 324).  `validationError` models any exception raised while working on the
decoded data, re-raised unchanged at line 328. -/
inductive AnalyzeFailure where
  | parseFailure (raisedMessage loggedRawResponse : String)
  | validationError (message : String)

/-- vision.py lines 266-328: the handling of the oracle's raw response text.
`decode` stands for the library function `json.loads`, returning either the
decoded value or the `JSONDecodeError` message.  A decode failure is a hard
failure; a decoded non-dict dies on the first item assignment (line 273). -/
def analyzeResponseText (decode : String → Except String JVal) (ctx : AnalysisContext)
    (analysis_text : String) : Except AnalyzeFailure JObj :=
  match decode analysis_text with
  | .error e =>
      .error (.parseFailure ("Failed to parse AI response as JSON: " ++ e) analysis_text)
  | .ok (jobj fields) =>
      (processDecodedAnalysis ctx fields).mapError AnalyzeFailure.validationError
  | .ok _ =>
      .error (.validationError "TypeError: item assignment on non-dict")

end Vision

namespace ReportGen

/-! ### src/reporter/report_generator.py and src/reporter/types.py -/

open JVal

/-- report_generator.py lines 31-55: the default report skeleton built at the top
of `_parse_analysis_results_internal`, keys in source order. -/
def defaultReport : JObj :=
  [("critical_issues", jobj [("sections", jarr []), ("summary", jstr "")]),
   ("critical_issues_enum", jstr "none"),
   ("structural_analysis",
      jobj [("section_order", jstr ""), ("layout", jstr ""), ("broken_layouts", jstr "")]),
   ("visual_changes",
      jobj [("diff_highlights", jarr []), ("animation_issues", jstr ""), ("conclusion", jstr "")]),
   ("visual_changes_enum", jstr "none"),
   ("conclusion",
      jobj [("critical_issues", jstr ""), ("visual_changes", jstr ""),
            ("recommendation", jstr ""), ("summary", jstr "")]),
   ("recommendation_enum", jstr "pass")]

/-- report_generator.py lines 58-66: the legacy fallback of
`_parse_analysis_results_internal` when `visual_analysis` is a string. -/
def parseStringAnalysis (visual_analysis : String) (report : JObj) : JObj :=
  let report :=
    if strContainsSub (pyLower visual_analysis) "missing sections" then
      setKey report "critical_issues_enum" (jstr "missing_sections")
    else report
  if strContainsSub (pyLower visual_analysis) "significant changes" then
    setKey (setKey report "visual_changes_enum" (jstr "significant"))
      "recommendation_enum" (jstr "review_required")
  else if strContainsSub (pyLower visual_analysis) "minor changes" then
    setKey report "visual_changes_enum" (jstr "minor")
  else report

/-- `v.get(k, d)` where `v` must be a dict: AttributeError otherwise. -/
def jGetE (v : JVal) (k : String) (d : JVal) : Except String JVal :=
  match v with
  | jobj fs => .ok (getKeyD fs k d)
  | _ => .error "AttributeError: object has no attribute get"

/-- `report[k1][k2] = v` for the report skeleton, whose `k1` entry is always a
dict (the branch for a missing or non-dict entry is unreachable on the states
this is applied to). -/
def setKey2 (report : JObj) (k1 k2 : String) (v : JVal) : JObj :=
  match lookupKey report k1 with
  | some (jobj inner) => setKey report k1 (jobj (setKey inner k2 v))
  | _ => report

/-- Tag an exception with the report state at the moment it is raised. -/
def fetch (r : JObj) : Except String JVal → Except (JObj × String) JVal
  | .ok v => .ok v
  | .error e => .error (r, e)

/-- report_generator.py lines 69-101: the `try` body of
`_parse_analysis_results_internal` for a non-string `visual_analysis`,
statement by statement; an exception carries the partially updated report. -/
def parseStructuredAnalysis (visual_analysis : JVal) (report : JObj) :
    Except (JObj × String) JObj := do
  let critical_issues ← fetch report (jGetE visual_analysis "critical_issues" (jobj []))
  let v ← fetch report (jGetE critical_issues "sections" (jarr []))
  let r := setKey2 report "critical_issues" "sections" v
  let v ← fetch r (jGetE critical_issues "summary" (jstr ""))
  let r := setKey2 r "critical_issues" "summary" v
  let v ← fetch r (jGetE visual_analysis "critical_issues_enum" (jstr "none"))
  let r := setKey r "critical_issues_enum" v
  let structural ← fetch r (jGetE visual_analysis "structural_analysis" (jobj []))
  let v ← fetch r (jGetE structural "section_order" (jstr ""))
  let r := setKey2 r "structural_analysis" "section_order" v
  let v ← fetch r (jGetE structural "layout" (jstr ""))
  let r := setKey2 r "structural_analysis" "layout" v
  let v ← fetch r (jGetE structural "broken_layouts" (jstr ""))
  let r := setKey2 r "structural_analysis" "broken_layouts" v
  let visual_changes ← fetch r (jGetE visual_analysis "visual_changes" (jobj []))
  let v ← fetch r (jGetE visual_changes "diff_highlights" (jarr []))
  let r := setKey2 r "visual_changes" "diff_highlights" v
  let v ← fetch r (jGetE visual_changes "animation_issues" (jstr ""))
  let r := setKey2 r "visual_changes" "animation_issues" v
  let v ← fetch r (jGetE visual_changes "conclusion" (jstr ""))
  let r := setKey2 r "visual_changes" "conclusion" v
  let v ← fetch r (jGetE visual_analysis "visual_changes_enum" (jstr "none"))
  let r := setKey r "visual_changes_enum" v
  let conclusion ← fetch r (jGetE visual_analysis "conclusion" (jobj []))
  let v ← fetch r (jGetE conclusion "critical_issues" (jstr ""))
  let r := setKey2 r "conclusion" "critical_issues" v
  let v ← fetch r (jGetE conclusion "visual_changes" (jstr ""))
  let r := setKey2 r "conclusion" "visual_changes" v
  let v ← fetch r (jGetE conclusion "recommendation" (jstr "pass"))
  let r := setKey2 r "conclusion" "recommendation" v
  let v ← fetch r (jGetE conclusion "summary" (jstr ""))
  let r := setKey2 r "conclusion" "summary" v
  let v ← fetch r (jGetE visual_analysis "recommendation_enum" (jstr "pass"))
  pure (setKey r "recommendation_enum" v)

/-- report_generator.py lines 103-107: the `except` handler of
`_parse_analysis_results_internal`. -/
def parseExceptHandler (p : JObj × String) : JObj :=
  let r := setKey2 p.1 "conclusion" "summary"
    (jstr ("Error parsing visual analysis: " ++ p.2))
  setKey (setKey r "recommendation_enum" (jstr "review_required"))
    "critical_issues_enum" (jstr "other_issues")

/-- report_generator.py lines 19-109, `_parse_analysis_results_internal`.
(The `base_url`/`preview_url`/`pr_number`/`repository`/`image_refs` parameters
of the Python function are unused in its body and omitted here.) -/
def parseAnalysisResultsInternal (visual_analysis : JVal) : JObj :=
  match visual_analysis with
  | jstr s => parseStringAnalysis s defaultReport
  | _ =>
      match parseStructuredAnalysis visual_analysis defaultReport with
      | .ok r => r
      | .error p => parseExceptHandler p

/-- report_generator.py lines 222-248: the per-page status determination inside
`parse_multi_page_analysis_results`: the structured-enum cascade for a dict,
the lowercased free-text scan for anything else. -/
def pageStatus (visual_analysis : JVal) : String :=
  match visual_analysis with
  | jobj fields =>
      let critical_issues_enum := getKeyD fields "critical_issues_enum" (jstr "none")
      if ¬ isStr critical_issues_enum "none" then "fail"
      else
        let visual_changes_enum := getKeyD fields "visual_changes_enum" (jstr "none")
        let recommendation_enum := getKeyD fields "recommendation_enum" (jstr "pass")
        if isStr visual_changes_enum "significant" ∨
           isStr recommendation_enum "review_required" then "warning"
        else if isStr visual_changes_enum "minor" then "warning"
        else "pass"
  | other =>
      let analysis_text := pyLower (pyStr other)
      if strContainsSub analysis_text "missing sections" ∨
         strContainsSub analysis_text "critical" then "fail"
      else if strContainsSub analysis_text "significant changes" ∨
              strContainsSub analysis_text "review required" then "warning"
      else "pass"

/-- One entry of the `page_results` argument of
`parse_multi_page_analysis_results`, exactly the fields its docstring and body
require (`image_refs` is read with `.get`, hence optional). -/
structure PageResult where
  page_path : String
  base_url : String
  pr_url : String
  visual_analysis : JVal
  sections_analysis : String
  image_refs : Option JVal

/-- types.py lines 41-44, `TestData`. -/
structure TestData where
  pr_number : String
  repository : String
  timestamp : String

/-- types.py lines 60-62, `MultiPageReportData`: `test_data` plus the ordered
page reports (each page report modelled as the dict the code actually builds). -/
structure MultiPageReportData where
  test_data : TestData
  reports : List JObj

/-- report_generator.py lines 255-266: the page-report dict literal built for one
page result (the `parsed_report[...]` lookups are plain indexing; those keys are
always present in `_parse_analysis_results_internal`'s result, so the `jnull`
defaults are unreachable). -/
def buildPageReport (p : PageResult) : JObj :=
  let status := pageStatus p.visual_analysis
  let parsed := parseAnalysisResultsInternal p.visual_analysis
  [("page_path", jstr p.page_path),
   ("url", jstr p.base_url),
   ("preview_url", jstr p.pr_url),
   ("status", jstr status),
   ("critical_issues", getKeyD parsed "critical_issues" jnull),
   ("structural_analysis", getKeyD parsed "structural_analysis" jnull),
   ("visual_changes", getKeyD parsed "visual_changes" jnull),
   ("conclusion", getKeyD parsed "conclusion" jnull),
   ("image_refs", p.image_refs.getD jnull)]

/-- report_generator.py lines 182-273, `parse_multi_page_analysis_results`
(`now` stands for `datetime.utcnow().isoformat()`). -/
def parse_multi_page_analysis_results (pr_number repository now : String)
    (page_results : List PageResult) : MultiPageReportData :=
  { test_data := { pr_number := pr_number, repository := repository, timestamp := now },
    reports := page_results.map buildPageReport }

/-- types.py lines 46-58: the keys the `PageReport` TypedDict declares, all
required (the class is total), in declaration order. -/
def pageReportRequiredKeys : List String :=
  ["page_path", "url", "preview_url", "status",
   "critical_issues", "critical_issues_enum",
   "structural_analysis",
   "visual_changes", "visual_changes_enum",
   "recommendation_enum", "conclusion", "image_refs"]

end ReportGen

namespace PrComments

/-! ### src/github/pr_comments.py -/

open JVal

/-- pr_comments.py line 35 (and 41, 47):
`report.get('status') or report.get('status_enum', 'none')`. -/
def effectiveStatus (report : JObj) : JVal :=
  let s := getKeyD report "status" jnull
  if s.isTruthy then s else getKeyD report "status_enum" (jstr "none")

/-- pr_comments.py lines 14-52, `get_test_status`: empty input is `'none'`;
otherwise three scans in priority order (each Python `for` loop with an early
`return` is a `List.any`), defaulting to `'none'`. -/
def get_test_status (reports : List JObj) : String :=
  if reports.isEmpty then "none"
  else if reports.any (fun r => isStr (effectiveStatus r) "fail") then "fail"
  else if reports.any (fun r => isStr (effectiveStatus r) "warning") then "warning"
  else if reports.any (fun r => isStr (effectiveStatus r) "pass") then "pass"
  else "none"

/-- A PR comment as seen through the GitHub issues API: its id and body. -/
structure Comment where
  id : Nat
  body : String

/-- pr_comments.py lines 119-122: the sentinel prefixes that mark the tool's own
comment.  The three header variants are reproduced with the file's literal
characters (the source file stores them double-encoded). -/
def sentinelPrefixes : List String :=
  ["Information about visual testing analysis provided by [bruniai]",
   "# âœ… Visual Testing Report",
   "# âš ï¸ Visual Testing Report",
   "# âŒ Visual Testing Report"]

/-- pr_comments.py lines 119-122: a body carries the tool's sentinel when it
starts with one of the sentinel prefixes. -/
def bodyHasSentinel (body : String) : Bool :=
  sentinelPrefixes.any (fun p => strStartsWith body p)

/-- pr_comments.py lines 118-124: a comment is recognized as the tool's own when
its body starts with one of the sentinel prefixes. -/
def isToolComment (c : Comment) : Bool :=
  bodyHasSentinel c.body

/-- pr_comments.py lines 96-98: append the "View Artifacts" link to the summary
when a run id is available. -/
def withArtifactsLink (summary repo : String) (run_id : Option String) : String :=
  match run_id with
  | some rid =>
      summary ++ "\n\nğŸ“¦ [View Artifacts](https://github.com/" ++ repo ++
        "/actions/runs/" ++ rid ++ ") for more details including screenshots."
  | none => summary

/-- pr_comments.py lines 117-124: the id of the first comment recognized as the
tool's own, if any. -/
def findExistingCommentId (comments : List Comment) : Option Nat :=
  (comments.find? isToolComment).map Comment.id

/-- pr_comments.py lines 100-142: the effect of a successful run of
`post_pr_comment` on the PR's comment list, after the token/repo/PR-number
context has been resolved.  `comments` is what the GET at line 108 returns,
`newId` the id GitHub assigns when a comment is created; an existing tool
comment is PATCHed in place (lines 126-134), otherwise a new comment is POSTed
(lines 135-142). -/
def post_pr_comment (comments : List Comment) (summary repo : String)
    (run_id : Option String) (newId : Nat) : List Comment :=
  let body := withArtifactsLink summary repo run_id
  match findExistingCommentId comments with
  | some cid =>
      comments.map (fun c => if c.id = cid then { c with body := body } else c)
  | none => comments ++ [{ id := newId, body := body }]

/-- The number of tool-authored comments (sentinel-prefixed bodies) on the PR. -/
def countToolComments (comments : List Comment) : Nat :=
  comments.countP (fun c => isToolComment c)

end PrComments

namespace Reporter

/-! ### src/reporter/reporter.py -/

open JVal

/-- What the reporting backend answers to one chunk POST.  `ok`/`status`/`text`
are the aiohttp response's fields; `testId` is the result of the extraction
`response_data.get('test').get('id')` at line 80 — `none` covers a non-JSON
body, a missing `test` key (the raised AttributeError is swallowed by the bare
`except` at line 83, leaving `test_id` untouched) and a missing or null `id`. -/
structure ApiResponse where
  ok : Bool
  status : Nat
  text : String
  testId : Option String

/-- reporter.py lines 45-54: the JSON payload POSTed for one chunk; `test_id`
is only present when it has been extracted from an earlier response. -/
structure ChunkPayload where
  reports : List JObj
  test_data : ReportGen.TestData
  chunk_index : Nat
  total_chunks : Nat
  test_id : Option String

/-- reporter.py line 33: `max_chunk_size = 1  # 1 report per chunk`. -/
def maxChunkSize : Nat := 1

/-- reporter.py line 35:
`[reports[i:i + max_chunk_size] for i in range(0, len(reports), max_chunk_size)]`
with `max_chunk_size = 1` (so the range step is 1). -/
def makeChunks (reports : List JObj) : List (List JObj) :=
  (List.range reports.length).map (fun i => (reports.drop i).take maxChunkSize)

/-- reporter.py lines 41-91: the chunk loop.  `respond i` is the backend's
response to the POST of chunk `i`.  Each iteration records the payload it POSTs;
a non-ok response raises the ValueError of line 68 and stops the loop, so later
chunks are never sent; on success the `test_id` state is updated from the first
chunk's response (line 79-80) and the response is appended to `all_responses`. -/
def sendChunks (respond : Nat → ApiResponse) (test_data : ReportGen.TestData)
    (total_chunks : Nat) :
    Nat → Option String → List (List JObj) →
      List ChunkPayload × Except String (List ApiResponse)
  | _, _, [] => ([], .ok [])
  | chunk_index, test_id, chunk :: rest =>
      let payload : ChunkPayload :=
        { reports := chunk, test_data := test_data, chunk_index := chunk_index,
          total_chunks := total_chunks, test_id := test_id }
      let resp := respond chunk_index
      if resp.ok then
        let new_test_id :=
          if chunk_index = 0 ∧ test_id = none then resp.testId else test_id
        let next := sendChunks respond test_data total_chunks (chunk_index + 1) new_test_id rest
        (payload :: next.1, next.2.map (fun rs => resp :: rs))
      else
        ([payload],
         .error ("Failed to send multi-page report: " ++ toString resp.status ++
           " - " ++ resp.text))

/-- reporter.py lines 14-93, `send_multi_page_report`: no token means the
submission is skipped (`.ok none`, the Python `return None`); otherwise the
reports are split into one-report chunks and sent sequentially.  The first
component is the ordered list of payloads actually POSTed; `.error` is the
raised ValueError of a failed chunk. -/
def send_multi_page_report (token : String) (respond : Nat → ApiResponse)
    (multi_page_report : ReportGen.MultiPageReportData) :
    List ChunkPayload × Except String (Option (List ApiResponse)) :=
  if token = "" then ([], .ok none)
  else
    let chunks := makeChunks multi_page_report.reports
    let r := sendChunks respond multi_page_report.test_data chunks.length 0 none chunks
    (r.1, r.2.map some)

end Reporter

namespace Diff

/-! ### src/image_processing/diff.py -/

/-- An RGB pixel (three 8-bit channels, values 0-255). -/
abbrev RGB := Nat × Nat × Nat

/-- An RGBA pixel. -/
abbrev RGBA := Nat × Nat × Nat × Nat

/-- A decoded raster image: dimensions plus the pixel at each coordinate
(the function is total; only coordinates below the dimensions are meaningful). -/
structure Image where
  width : Nat
  height : Nat
  pix : Nat → Nat → RGB

/-- An RGBA raster image. -/
structure ImageRGBA where
  width : Nat
  height : Nat
  pix : Nat → Nat → RGBA

/-- The opaque-white fill `Image.new('RGB', ..., 'white')`. -/
def white : RGB := (255, 255, 255)

/-- diff.py lines 17-22: a `w × h` white canvas with the source image pasted at
`(0, 0)` (no centering, no scaling). -/
def pasteOnWhite (img : Image) (w h : Nat) : Image :=
  { width := w, height := h,
    pix := fun x y => if x < img.width ∧ y < img.height then img.pix x y else white }

/-- One channel of `ImageChops.difference`: the absolute difference. -/
def channelDiff (a b : Nat) : Nat := max a b - min a b

/-- `ImageChops.difference` on one pixel. -/
def pixelDiff (p q : RGB) : RGB :=
  (channelDiff p.1 q.1, channelDiff p.2.1 q.2.1, channelDiff p.2.2 q.2.2)

/-- The three rasters `generate_diff_image` writes to disk: the two padded
canvases (`*-resized.png`) and the RGBA diff highlight (`diff_output_path`). -/
structure DiffOutput where
  resized1 : Image
  resized2 : Image
  diff_highlight : ImageRGBA

/-- diff.py lines 7-47, `generate_diff_image`: pad both inputs onto white
canvases of the maximum dimensions, take the per-channel absolute difference,
and build an RGBA raster that is opaque red `(255,0,0,255)` where any channel
of the difference is nonzero (`(diff_np != 0).any(axis=2)`) and transparent
black `(0,0,0,0)` elsewhere (the numpy array starts as zeros). -/
def generate_diff_image (img1 img2 : Image) : DiffOutput :=
  let max_width := max img1.width img2.width
  let max_height := max img1.height img2.height
  let new_img1 := pasteOnWhite img1 max_width max_height
  let new_img2 := pasteOnWhite img2 max_width max_height
  { resized1 := new_img1, resized2 := new_img2,
    diff_highlight :=
      { width := max_width, height := max_height,
        pix := fun x y =>
          let d := pixelDiff (new_img1.pix x y) (new_img2.pix x y)
          if d.1 ≠ 0 ∨ d.2.1 ≠ 0 ∨ d.2.2 ≠ 0 then (255, 0, 0, 255)
          else (0, 0, 0, 0) } }

theorem channelDiff_eq_zero_iff (a b : Nat) : channelDiff a b = 0 ↔ a = b := by
  unfold channelDiff
  omega

theorem pixelDiff_nonzero_iff (p q : RGB) :
    ((pixelDiff p q).1 ≠ 0 ∨ (pixelDiff p q).2.1 ≠ 0 ∨ (pixelDiff p q).2.2 ≠ 0) ↔ p ≠ q := by
  obtain ⟨p1, p2, p3⟩ := p
  obtain ⟨q1, q2, q3⟩ := q
  simp only [pixelDiff, Prod.mk.injEq, ne_eq, Prod.ext_iff]
  constructor
  · rintro (h | h | h) ⟨h1, h2, h3⟩ <;>
      simp_all [channelDiff_eq_zero_iff]
  · intro h
    by_contra hc
    push_neg at hc
    obtain ⟨h1, h2, h3⟩ := hc
    rw [channelDiff_eq_zero_iff] at *
    exact h ⟨by omega, by omega, by omega⟩

theorem pixelDiff_self (p : RGB) : pixelDiff p p = (0, 0, 0) := by
  simp [pixelDiff, channelDiff]

end Diff

/-! ## The claims -/

section Claims

open JVal

/-- **C1** (spec §4.3, step rules): the per-page pass/warning/fail cascade
exactly as the claim words it, reading the three enum fields with the code's
`.get` defaults.  This is the spec-side definition the code is compared
against. -/
def specStatusCascade (fields : JObj) : String :=
  if ¬ isStr (getKeyD fields "critical_issues_enum" (jstr "none")) "none" then "fail"
  else if isStr (getKeyD fields "visual_changes_enum" (jstr "none")) "significant" ∨
          isStr (getKeyD fields "recommendation_enum" (jstr "pass")) "review_required" then
    "warning"
  else if isStr (getKeyD fields "visual_changes_enum" (jstr "none")) "minor" then "warning"
  else "pass"

/-- **C1, counterexample.**  The claim says the resolver returns `'pass'` for a
structured verdict with no critical issue, no visual change and no
review-required recommendation; the empty dict is such a verdict (every enum
reads as its default), yet `determine_status_from_visual_analysis` returns
`'none'` for it, because `if not visual_analysis` treats the (falsy) empty dict
like a missing one. -/
theorem C1_resolver_counterexample :
    specStatusCascade [] = "pass" ∧
    (Vision.determine_status_from_visual_analysis (JVal.jobj [])).1 = "none" := by
  exact ⟨rfl, rfl⟩

/-- **C1, amended.**  For every *non-empty* dict verdict,
`determine_status_from_visual_analysis` resolves the status exactly by the
claim's cascade (fail on critical issues, else warning on significant changes or
review-required, else warning on minor changes, else pass — so a flagged change
never yields `'pass'`); the empty dict resolves to `'none'`.  The inline
per-page resolver of `parse_multi_page_analysis_results` follows the cascade for
every dict, the empty one included. -/
theorem C1_per_page_resolver_amended (fields : JObj) :
    (Vision.determine_status_from_visual_analysis (JVal.jobj fields)).1 =
      (if fields.isEmpty then "none" else specStatusCascade fields) ∧
    ReportGen.pageStatus (JVal.jobj fields) = specStatusCascade fields := by
  constructor
  · by_cases h : fields.isEmpty <;>
      simp [Vision.determine_status_from_visual_analysis, specStatusCascade, h]
  · rfl

/-- **C8** (spec §4.2 note): the legacy free-text classification exactly as the
claim words it — scan the lowercased analysis text, `'fail'` on
"missing sections" or "critical", `'warning'` on "significant changes" or
"review required", `'pass'` otherwise. -/
def specTextScan (text : String) : String :=
  let t := pyLower text
  if strContainsSub t "missing sections" ∨ strContainsSub t "critical" then "fail"
  else if strContainsSub t "significant changes" ∨ strContainsSub t "review required" then
    "warning"
  else "pass"

/-- **C8, counterexample.**  The claim says the text fallback applies wherever a
status is derived from an analysis, so the free text "missing sections" should
classify as `'fail'`; but `determine_status_from_visual_analysis` returns
`('none', '❓')` for it — its string-scanning branch is unreachable behind the
early non-dict return. -/
theorem C8_text_fallback_counterexample :
    specTextScan "missing sections" = "fail" ∧
    Vision.determine_status_from_visual_analysis (JVal.jstr "missing sections") =
      ("none", "❓") := by
  exact ⟨rfl, rfl⟩

/-- **C8, amended.**  The legacy free-text classification is preserved in the
per-page status derivation of `parse_multi_page_analysis_results`, which scans
exactly the claim's phrases on the lowercased text; but
`determine_status_from_visual_analysis` does not take part in it — it returns
`'none'` for every string analysis, its text-scanning branch being dead code. -/
theorem C8_text_fallback_amended (s : String) :
    ReportGen.pageStatus (JVal.jstr s) = specTextScan s ∧
    (Vision.determine_status_from_visual_analysis (JVal.jstr s)).1 = "none" := by
  exact ⟨rfl, rfl⟩

/-- **C5.**  The page-report dict assembled by `parse_multi_page_analysis_results`
carries exactly the nine keys `page_path`, `url`, `preview_url`, `status`, the
four verdict sub-records and `image_refs` — and in particular *omits* the
`critical_issues_enum`, `visual_changes_enum` and `recommendation_enum` keys,
although the `PageReport` TypedDict of types.py declares all three as required.
This contradicts the claim (and the code's own type declaration): the code, not
the claim, drops the fields. -/
theorem C5_page_report_missing_enums (p : ReportGen.PageResult) :
    (ReportGen.buildPageReport p).map Prod.fst =
      ["page_path", "url", "preview_url", "status", "critical_issues",
       "structural_analysis", "visual_changes", "conclusion", "image_refs"] ∧
    lookupKey (ReportGen.buildPageReport p) "critical_issues_enum" = none ∧
    lookupKey (ReportGen.buildPageReport p) "visual_changes_enum" = none ∧
    lookupKey (ReportGen.buildPageReport p) "recommendation_enum" = none ∧
    "critical_issues_enum" ∈ ReportGen.pageReportRequiredKeys ∧
    "visual_changes_enum" ∈ ReportGen.pageReportRequiredKeys ∧
    "recommendation_enum" ∈ ReportGen.pageReportRequiredKeys := by
  refine ⟨rfl, ?_, ?_, ?_, ?_, ?_, ?_⟩ <;>
    simp [ReportGen.buildPageReport, ReportGen.pageReportRequiredKeys, lookupKey]

/-- **C9.**  If the oracle's raw response text cannot be JSON-decoded,
`analyze_images_with_vision` fails with the parse error of vision.py line 324
(whose diagnostics also log the raw text, line 323) and produces no verdict:
the outcome is the error — a decode failure is never repaired into a default
verdict. -/
theorem C9_unparseable_response_fails (decode : String → Except String JVal)
    (ctx : Vision.AnalysisContext) (raw e : String) (h : decode raw = .error e) :
    Vision.analyzeResponseText decode ctx raw =
      .error (.parseFailure ("Failed to parse AI response as JSON: " ++ e) raw) := by
  unfold Vision.analyzeResponseText
  rw [h]

/-- **C9, witness**: the scenario of spec §8.11 — the oracle answers the literal
text "invalid json", the decoder rejects it, and the analysis fails with the
parse error carrying that raw text. -/
theorem C9_unparseable_response_fails_witness :
    Vision.analyzeResponseText
      (fun _ => .error "Expecting value: line 1 column 1 (char 0)")
      { id := "id0", base_url := "https://example.com",
        preview_url := "https://preview.example.com", pr_number := "123",
        repository := "test/repo", timestamp := "t0", created_at := "t0",
        user_id := none }
      "invalid json" =
    .error (.parseFailure
      "Failed to parse AI response as JSON: Expecting value: line 1 column 1 (char 0)"
      "invalid json") := by
  exact C9_unparseable_response_fails
    (fun _ => .error "Expecting value: line 1 column 1 (char 0)")
    { id := "id0", base_url := "https://example.com",
      preview_url := "https://preview.example.com", pr_number := "123",
      repository := "test/repo", timestamp := "t0", created_at := "t0",
      user_id := none }
    "invalid json" "Expecting value: line 1 column 1 (char 0)" rfl

/-- **C4.**  `generate_diff_image` produces a diff raster of dimensions
`max(width1, width2) × max(height1, height2)` whose pixel at any location is
opaque red `(255,0,0,255)` exactly when some RGB channel of the two white-padded
canvases differs there, and transparent black `(0,0,0,0)` exactly otherwise; for
two identical inputs every pixel is `(0,0,0,0)`, so the alpha channel is
all-zero. -/
theorem C4_diff_mask (img1 img2 : Diff.Image) (x y : Nat) :
    (Diff.generate_diff_image img1 img2).diff_highlight.width =
      max img1.width img2.width ∧
    (Diff.generate_diff_image img1 img2).diff_highlight.height =
      max img1.height img2.height ∧
    ((Diff.generate_diff_image img1 img2).diff_highlight.pix x y = (255, 0, 0, 255) ↔
      (Diff.pasteOnWhite img1 (max img1.width img2.width)
          (max img1.height img2.height)).pix x y ≠
        (Diff.pasteOnWhite img2 (max img1.width img2.width)
          (max img1.height img2.height)).pix x y) ∧
    ((Diff.generate_diff_image img1 img2).diff_highlight.pix x y = (0, 0, 0, 0) ↔
      (Diff.pasteOnWhite img1 (max img1.width img2.width)
          (max img1.height img2.height)).pix x y =
        (Diff.pasteOnWhite img2 (max img1.width img2.width)
          (max img1.height img2.height)).pix x y) ∧
    (Diff.generate_diff_image img1 img1).diff_highlight.pix x y = (0, 0, 0, 0) := by
  refine ⟨rfl, rfl, ?_, ?_, ?_⟩
  · simp only [Diff.generate_diff_image]
    rw [← Diff.pixelDiff_nonzero_iff]
    split <;> simp_all [Prod.ext_iff]
  · simp only [Diff.generate_diff_image]
    split <;> simp_all [Diff.pixelDiff_nonzero_iff, Prod.ext_iff]
  · simp [Diff.generate_diff_image, Diff.pixelDiff_self]

/-- **C2** spec-side: the severity rank of a status value on the lattice
fail > warning > pass > none (anything unrecognized ranks with none). -/
def severityRank (v : JVal) : Nat :=
  if isStr v "fail" then 3
  else if isStr v "warning" then 2
  else if isStr v "pass" then 1
  else 0

/-- **C2** spec-side: the status name of a severity rank. -/
def statusOfRank (n : Nat) : String :=
  if n = 3 then "fail" else if n = 2 then "warning" else if n = 1 then "pass" else "none"

/-- **C2** spec-side: the maximum severity present among the reports (0 when
there are none). -/
def maxSeverity (reports : List JObj) : Nat :=
  (reports.map (fun r => severityRank (PrComments.effectiveStatus r))).foldr max 0

theorem le_foldr_max (l : List Nat) (a : Nat) (h : a ∈ l) : a ≤ l.foldr max 0 := by
  induction l with
  | nil => cases h
  | cons b t ih =>
      rcases List.mem_cons.mp h with rfl | h'
      · exact le_max_left _ _
      · exact le_trans (ih h') (le_max_right _ _)

theorem foldr_max_le (l : List Nat) (b : Nat) (h : ∀ a ∈ l, a ≤ b) : l.foldr max 0 ≤ b := by
  induction l with
  | nil => simp
  | cons c t ih =>
      simp only [List.foldr]
      exact max_le (h c (by simp)) (ih fun a ha => h a (by simp [ha]))

theorem severityRank_le_three (v : JVal) : severityRank v ≤ 3 := by
  unfold severityRank
  split <;> [omega; split <;> [omega; split <;> omega]]

theorem severityRank_le_two (v : JVal) (hf : isStr v "fail" = false) :
    severityRank v ≤ 2 := by
  unfold severityRank
  simp only [hf, Bool.false_eq_true, if_false]
  split <;> [omega; split <;> omega]

theorem severityRank_le_one (v : JVal) (hf : isStr v "fail" = false)
    (hw : isStr v "warning" = false) : severityRank v ≤ 1 := by
  unfold severityRank
  simp only [hf, hw, Bool.false_eq_true, if_false]
  split <;> omega

theorem severityRank_eq_zero (v : JVal) (hf : isStr v "fail" = false)
    (hw : isStr v "warning" = false) (hp : isStr v "pass" = false) :
    severityRank v = 0 := by
  simp [severityRank, hf, hw, hp]

theorem severityRank_mem_le (reports : List JObj) (r : JObj) (h : r ∈ reports) :
    severityRank (PrComments.effectiveStatus r) ≤ maxSeverity reports :=
  le_foldr_max _ _ (List.mem_map_of_mem _ h)

theorem maxSeverity_le (reports : List JObj) (b : Nat)
    (h : ∀ r ∈ reports, severityRank (PrComments.effectiveStatus r) ≤ b) :
    maxSeverity reports ≤ b := by
  refine foldr_max_le _ _ ?_
  intro a ha
  obtain ⟨r, hr, rfl⟩ := List.mem_map.mp ha
  exact h r hr

/-- **C2.**  `get_test_status` computes exactly the maximum severity present
among the reports under the lattice fail > warning > pass > none — `'none'` for
the empty list — and is therefore never less severe than any individual report's
(effective) status. -/
theorem C2_aggregate_is_max_severity (reports : List JObj) :
    PrComments.get_test_status reports = statusOfRank (maxSeverity reports) ∧
    ∀ r ∈ reports, severityRank (PrComments.effectiveStatus r) ≤ maxSeverity reports := by
  refine ⟨?_, fun r hr => severityRank_mem_le reports r hr⟩
  unfold PrComments.get_test_status
  by_cases hemp : reports.isEmpty
  · rw [List.isEmpty_iff] at hemp
    subst hemp
    rfl
  · simp only [hemp, if_false]
    by_cases hf : reports.any (fun r => isStr (PrComments.effectiveStatus r) "fail")
    · obtain ⟨r, hr, hfr⟩ := List.any_eq_true.mp hf
      have h3 : maxSeverity reports = 3 := by
        refine le_antisymm (maxSeverity_le _ _ fun r _ => severityRank_le_three _) ?_
        have : severityRank (PrComments.effectiveStatus r) = 3 := by
          simp [severityRank, hfr]
        exact this ▸ severityRank_mem_le reports r hr
      simp [hf, h3, statusOfRank]
    · have hnf : ∀ r ∈ reports, isStr (PrComments.effectiveStatus r) "fail" = false := by
        intro r hr
        by_contra hc
        exact hf (List.any_eq_true.mpr ⟨r, hr, by simpa using hc⟩)
      by_cases hw : reports.any (fun r => isStr (PrComments.effectiveStatus r) "warning")
      · obtain ⟨r, hr, hwr⟩ := List.any_eq_true.mp hw
        have h2 : maxSeverity reports = 2 := by
          refine le_antisymm (maxSeverity_le _ _ fun q hq => ?_) ?_
          · exact severityRank_le_two _ (hnf q hq)
          · have : severityRank (PrComments.effectiveStatus r) = 2 := by
              simp [severityRank, hnf r hr, hwr]
            exact this ▸ severityRank_mem_le reports r hr
        simp [hf, hw, h2, statusOfRank]
      · have hnw : ∀ r ∈ reports, isStr (PrComments.effectiveStatus r) "warning" = false := by
          intro r hr
          by_contra hc
          exact hw (List.any_eq_true.mpr ⟨r, hr, by simpa using hc⟩)
        by_cases hp : reports.any (fun r => isStr (PrComments.effectiveStatus r) "pass")
        · obtain ⟨r, hr, hpr⟩ := List.any_eq_true.mp hp
          have h1 : maxSeverity reports = 1 := by
            refine le_antisymm (maxSeverity_le _ _ fun q hq => ?_) ?_
            · exact severityRank_le_one _ (hnf q hq) (hnw q hq)
            · have : severityRank (PrComments.effectiveStatus r) = 1 := by
                simp [severityRank, hnf r hr, hnw r hr, hpr]
              exact this ▸ severityRank_mem_le reports r hr
          simp [hf, hw, hp, h1, statusOfRank]
        · have hnp : ∀ r ∈ reports, isStr (PrComments.effectiveStatus r) "pass" = false := by
            intro r hr
            by_contra hc
            exact hp (List.any_eq_true.mpr ⟨r, hr, by simpa using hc⟩)
          have h0 : maxSeverity reports = 0 := by
            refine Nat.le_zero.mp (maxSeverity_le _ _ fun q hq => ?_)
            exact Nat.le_of_eq (severityRank_eq_zero _ (hnf q hq) (hnw q hq) (hnp q hq))
          simp [hf, hw, hp, h0, statusOfRank]

/-- **C2, witness**: the scenario of spec §8.10 — three pages with statuses
`[pass, warning, pass]` aggregate to `'warning'`, and the middle page's severity
is bounded by the aggregate's. -/
theorem C2_aggregate_is_max_severity_witness :
    PrComments.get_test_status
      [[("status", jstr "pass")], [("status", jstr "warning")], [("status", jstr "pass")]]
      = "warning" ∧
    severityRank (PrComments.effectiveStatus [("status", jstr "warning")]) ≤
      maxSeverity
        [[("status", jstr "pass")], [("status", jstr "warning")], [("status", jstr "pass")]] := by
  have h := C2_aggregate_is_max_severity
    [[("status", jstr "pass")], [("status", jstr "warning")], [("status", jstr "pass")]]
  refine ⟨by rw [h.1]; rfl, ?_⟩
  exact h.2 _ (List.mem_cons_of_mem _ (List.mem_cons_self _ _))

theorem makeChunks_length (reports : List JObj) :
    (Reporter.makeChunks reports).length = reports.length := by
  simp [Reporter.makeChunks]

theorem makeChunks_getElem (reports : List JObj) (i : Nat) (hi : i < reports.length) :
    (Reporter.makeChunks reports).get ⟨i, by simp [makeChunks_length, hi]⟩ =
      [reports.get ⟨i, hi⟩] := by
  simp only [Reporter.makeChunks, Reporter.maxChunkSize, List.get_eq_getElem,
    List.getElem_map, List.getElem_range]
  exact List.take_one_drop_eq_of_lt_length hi

/-- For every starting index at least 1 (so the `test_id` extraction of the
first chunk can no longer fire) and all-ok responses, the chunk loop sends one
payload per chunk with consecutive indices and the threaded `test_id`, and
collects the responses in order. -/
theorem sendChunks_all_ok (respond : Nat → Reporter.ApiResponse)
    (td : ReportGen.TestData) (total : Nat)
    (hok : ∀ j, (respond j).ok = true) :
    ∀ (chunks : List (List JObj)) (i0 : Nat) (tid : Option String), 1 ≤ i0 →
      (Reporter.sendChunks respond td total i0 tid chunks).1.length = chunks.length ∧
      (Reporter.sendChunks respond td total i0 tid chunks).2 =
        .ok ((List.range chunks.length).map (fun j => respond (i0 + j))) ∧
      ∀ (j : Nat) (hj : j < chunks.length),
        (Reporter.sendChunks respond td total i0 tid chunks).1[j]? =
          some { reports := chunks.get ⟨j, hj⟩, test_data := td, chunk_index := i0 + j,
                 total_chunks := total, test_id := tid } := by
  intro chunks
  induction chunks with
  | nil =>
      intro i0 tid _
      refine ⟨rfl, rfl, ?_⟩
      intro j hj
      cases hj
  | cons c rest ih =>
      intro i0 tid hi0
      have hne : ¬ (i0 = 0 ∧ tid = none) := by
        rintro ⟨rfl, -⟩
        omega
      obtain ⟨ihlen, ihres, ihget⟩ := ih (i0 + 1) tid (by omega)
      simp only [Reporter.sendChunks, hok i0, if_pos, if_neg hne]
      refine ⟨by simp [ihlen], ?_, ?_⟩
      · rw [ihres]
        simp only [Except.map, List.length_cons, List.range_succ_eq_map, List.map_cons,
          List.map_map, Nat.add_zero]
        congr 2
        refine List.map_congr_left ?_
        intro a _
        simp only [Function.comp_apply]
        congr 1
        omega
      · intro j hj
        match j with
        | 0 => simp
        | j + 1 =>
            have hj' : j < rest.length := by simpa using hj
            rw [List.getElem?_cons_succ, ihget j hj']
            have : i0 + 1 + j = i0 + (j + 1) := by omega
            simp [this]

/-- The chunk loop started from chunk 0 with no `test_id` yet: the first payload
carries none, and every later payload carries whatever the first response's
`test.id` extraction produced. -/
theorem sendChunks_from_start (respond : Nat → Reporter.ApiResponse)
    (td : ReportGen.TestData) (total : Nat)
    (hok : ∀ j, (respond j).ok = true) (chunks : List (List JObj)) :
    (Reporter.sendChunks respond td total 0 none chunks).1.length = chunks.length ∧
    (Reporter.sendChunks respond td total 0 none chunks).2 =
      .ok ((List.range chunks.length).map respond) ∧
    ∀ (j : Nat) (hj : j < chunks.length),
      (Reporter.sendChunks respond td total 0 none chunks).1[j]? =
        some { reports := chunks.get ⟨j, hj⟩, test_data := td, chunk_index := j,
               total_chunks := total,
               test_id := if j = 0 then none else (respond 0).testId } := by
  match chunks with
  | [] =>
      refine ⟨rfl, rfl, ?_⟩
      intro j hj
      cases hj
  | c :: rest =>
      obtain ⟨ihlen, ihres, ihget⟩ :=
        sendChunks_all_ok respond td total hok rest 1 (respond 0).testId (by omega)
      simp only [Reporter.sendChunks, hok 0, if_pos, and_self, if_true, Nat.zero_add]
      refine ⟨by simp [ihlen], ?_, ?_⟩
      · rw [ihres]
        simp only [Except.map, List.length_cons, List.range_succ_eq_map, List.map_cons,
          List.map_map]
        congr 2
        refine List.map_congr_left ?_
        intro a _
        simp only [Function.comp_apply]
        congr 1
        omega
      · intro j hj
        match j with
        | 0 => simp
        | j + 1 =>
            have hj' : j < rest.length := by simpa using hj
            rw [List.getElem?_cons_succ, ihget j hj']
            simp [show (1 : Nat) + j = j + 1 by omega]

/-- **C6.**  With a token present and a backend that answers every chunk
successfully, `send_multi_page_report` splits the n reports into n one-report
chunks in input order and posts them sequentially: the i-th payload carries
exactly the i-th report, `chunk_index = i`, `total_chunks = n`, no `test_id` on
the first request and the `test_id` extracted from the first chunk's response on
every subsequent request; all n responses are collected successfully. -/
theorem C6_chunked_transport (token : String) (respond : Nat → Reporter.ApiResponse)
    (mpr : ReportGen.MultiPageReportData) (htok : token ≠ "")
    (hok : ∀ j, (respond j).ok = true) :
    (Reporter.send_multi_page_report token respond mpr).1.length = mpr.reports.length ∧
    (Reporter.send_multi_page_report token respond mpr).2 =
      .ok (some ((List.range mpr.reports.length).map respond)) ∧
    ∀ (i : Nat) (hi : i < mpr.reports.length),
      (Reporter.send_multi_page_report token respond mpr).1[i]? =
        some { reports := [mpr.reports.get ⟨i, hi⟩], test_data := mpr.test_data,
               chunk_index := i, total_chunks := mpr.reports.length,
               test_id := if i = 0 then none else (respond 0).testId } := by
  simp only [Reporter.send_multi_page_report, htok, if_neg, if_false]
  have hcl : (Reporter.makeChunks mpr.reports).length = mpr.reports.length :=
    makeChunks_length mpr.reports
  obtain ⟨hlen, hres, hget⟩ :=
    sendChunks_from_start respond mpr.test_data (Reporter.makeChunks mpr.reports).length hok
      (Reporter.makeChunks mpr.reports)
  refine ⟨by rw [hlen, hcl], ?_, ?_⟩
  · rw [hres, hcl]
    rfl
  · intro i hi
    rw [hget i (by rw [hcl]; exact hi)]
    rw [makeChunks_getElem mpr.reports i hi, hcl]

/-- A first non-ok response at relative position `k` stops the chunk loop: the
`k+1` payloads up to and including the failing one are posted, the ValueError of
reporter.py line 68 is raised, and no later chunk is sent. -/
theorem sendChunks_first_failure (respond : Nat → Reporter.ApiResponse)
    (td : ReportGen.TestData) (total : Nat) :
    ∀ (chunks : List (List JObj)) (i0 : Nat) (tid : Option String) (k : Nat),
      k < chunks.length →
      (respond (i0 + k)).ok = false →
      (∀ j < k, (respond (i0 + j)).ok = true) →
      (Reporter.sendChunks respond td total i0 tid chunks).1.length = k + 1 ∧
      (Reporter.sendChunks respond td total i0 tid chunks).2 =
        .error ("Failed to send multi-page report: " ++ toString (respond (i0 + k)).status ++
          " - " ++ (respond (i0 + k)).text) := by
  intro chunks
  induction chunks with
  | nil =>
      intro i0 tid k hk
      cases hk
  | cons c rest ih =>
      intro i0 tid k hk hfail hprev
      match k with
      | 0 =>
          simp only [Nat.add_zero] at hfail
          simp [Reporter.sendChunks, hfail]
      | k + 1 =>
          have h0 : (respond i0).ok = true := by
            have := hprev 0 (by omega)
            simpa using this
          have hk' : k < rest.length := by simpa using hk
          have hfail' : (respond (i0 + 1 + k)).ok = false := by
            rw [show i0 + 1 + k = i0 + (k + 1) by omega]
            exact hfail
          have hprev' : ∀ j < k, (respond (i0 + 1 + j)).ok = true := by
            intro j hj
            rw [show i0 + 1 + j = i0 + (j + 1) by omega]
            exact hprev (j + 1) (by omega)
          obtain ⟨ihlen, ihres⟩ := ih (i0 + 1)
            (if i0 = 0 ∧ tid = none then (respond i0).testId else tid) k hk' hfail' hprev'
          simp only [Reporter.sendChunks, h0, if_pos]
          constructor
          · simp [ihlen]
          · rw [ihres]
            simp only [Except.map]
            rw [show i0 + 1 + k = i0 + (k + 1) by omega]

/-- **C7.**  During a multi-chunk send, the first chunk whose response is not
successful makes `send_multi_page_report` raise the ValueError immediately:
exactly the chunks up to and including the failing one have been posted, the
outcome is the error, and none of the remaining chunks are sent — there is no
partial silent success. -/
theorem C7_fail_fast (token : String) (respond : Nat → Reporter.ApiResponse)
    (mpr : ReportGen.MultiPageReportData) (k : Nat) (htok : token ≠ "")
    (hk : k < mpr.reports.length)
    (hfail : (respond k).ok = false)
    (hprev : ∀ j < k, (respond j).ok = true) :
    (Reporter.send_multi_page_report token respond mpr).1.length = k + 1 ∧
    (Reporter.send_multi_page_report token respond mpr).2 =
      .error ("Failed to send multi-page report: " ++ toString (respond k).status ++
        " - " ++ (respond k).text) := by
  simp only [Reporter.send_multi_page_report, htok, if_neg, if_false]
  obtain ⟨hlen, hres⟩ :=
    sendChunks_first_failure respond mpr.test_data (Reporter.makeChunks mpr.reports).length
      (Reporter.makeChunks mpr.reports) 0 none k
      (by simpa [makeChunks_length] using hk)
      (by simpa using hfail)
      (by intro j hj; simpa using hprev j hj)
  refine ⟨hlen, ?_⟩
  rw [hres]
  simp [Except.map]

theorem strStartsWith_append (s t p : String) (h : strStartsWith s p = true) :
    strStartsWith (s ++ t) p = true := by
  unfold strStartsWith at *
  rw [String.data_append]
  exact List.isPrefixOf_iff_prefix.mpr
    (List.IsPrefix.trans (List.isPrefixOf_iff_prefix.mp h) (List.prefix_append _ _))

theorem bodyHasSentinel_append (s t : String) (h : PrComments.bodyHasSentinel s = true) :
    PrComments.bodyHasSentinel (s ++ t) = true := by
  obtain ⟨p, hp, hpre⟩ := List.any_eq_true.mp h
  exact List.any_eq_true.mpr ⟨p, hp, strStartsWith_append s t p hpre⟩

/-- Appending the artifacts link never removes a sentinel prefix from the body. -/
theorem bodyHasSentinel_withArtifactsLink (summary repo : String) (run_id : Option String)
    (h : PrComments.bodyHasSentinel summary = true) :
    PrComments.bodyHasSentinel (PrComments.withArtifactsLink summary repo run_id) = true := by
  cases run_id with
  | none => exact h
  | some rid =>
      unfold PrComments.withArtifactsLink
      exact bodyHasSentinel_append _ _ (bodyHasSentinel_append _ _
        (bodyHasSentinel_append _ _ (bodyHasSentinel_append _ _
          (bodyHasSentinel_append _ _ h))))

theorem find?_decomp {α : Type} (p : α → Bool) (l : List α) (c : α)
    (h : l.find? p = some c) :
    p c = true ∧ ∃ l1 l2, l = l1 ++ c :: l2 ∧ ∀ a ∈ l1, p a = false := by
  induction l with
  | nil => cases h
  | cons b t ih =>
      by_cases hb : p b
      · rw [List.find?_cons_of_pos _ hb] at h
        cases h
        exact ⟨hb, [], t, rfl, by intro a ha; cases ha⟩
      · rw [List.find?_cons_of_neg _ hb] at h
        obtain ⟨hc, l1, l2, rfl, hl1⟩ := ih h
        refine ⟨hc, b :: l1, l2, rfl, ?_⟩
        intro a ha
        rcases List.mem_cons.mp ha with rfl | ha'
        · exact Bool.not_eq_true _ ▸ (by simpa using hb)
        · exact hl1 a ha'

theorem post_pr_comment_create (comments : List PrComments.Comment)
    (summary repo : String) (run_id : Option String) (newId : Nat)
    (h : PrComments.findExistingCommentId comments = none) :
    PrComments.post_pr_comment comments summary repo run_id newId =
      comments ++ [⟨newId, PrComments.withArtifactsLink summary repo run_id⟩] := by
  unfold PrComments.post_pr_comment
  rw [h]

theorem post_pr_comment_update (comments : List PrComments.Comment)
    (summary repo : String) (run_id : Option String) (newId cid : Nat)
    (h : PrComments.findExistingCommentId comments = some cid) :
    PrComments.post_pr_comment comments summary repo run_id newId =
      comments.map (fun c => if c.id = cid then
        { c with body := PrComments.withArtifactsLink summary repo run_id } else c) := by
  unfold PrComments.post_pr_comment
  rw [h]

/-- One successful `post_pr_comment` run from a state with at most one
tool-authored comment: afterwards there is exactly one, its body is the posted
summary (with the artifacts link when a run id is present), and the set of
comment ids either stays the same (update) or gains exactly the fresh id
(create). -/
theorem post_upsert (comments : List PrComments.Comment) (summary repo : String)
    (run_id : Option String) (newId : Nat)
    (hids : (comments.map PrComments.Comment.id).Nodup)
    (hcount : PrComments.countToolComments comments ≤ 1)
    (hbody : PrComments.bodyHasSentinel summary = true) :
    PrComments.countToolComments
      (PrComments.post_pr_comment comments summary repo run_id newId) = 1 ∧
    (∀ c ∈ PrComments.post_pr_comment comments summary repo run_id newId,
        PrComments.isToolComment c = true →
        c.body = PrComments.withArtifactsLink summary repo run_id) ∧
    ((PrComments.post_pr_comment comments summary repo run_id newId).map
        PrComments.Comment.id = comments.map PrComments.Comment.id ∨
     (PrComments.post_pr_comment comments summary repo run_id newId).map
        PrComments.Comment.id = comments.map PrComments.Comment.id ++ [newId]) := by
  have hnewtool :
      PrComments.isToolComment
        ⟨newId, PrComments.withArtifactsLink summary repo run_id⟩ = true :=
    bodyHasSentinel_withArtifactsLink summary repo run_id hbody
  cases hfind : PrComments.findExistingCommentId comments with
  | none =>
      rw [post_pr_comment_create comments summary repo run_id newId hfind]
      have hf : comments.find? PrComments.isToolComment = none := by
        unfold PrComments.findExistingCommentId at hfind
        cases hf' : comments.find? PrComments.isToolComment with
        | none => rfl
        | some c => rw [hf'] at hfind; cases hfind
      have hall : ∀ c ∈ comments, PrComments.isToolComment c = false := by
        intro c hc
        have := List.find?_eq_none.mp hf c hc
        simpa using this
      refine ⟨?_, ?_, Or.inr ?_⟩
      · unfold PrComments.countToolComments
        rw [List.countP_append]
        have h0 : comments.countP (fun c => PrComments.isToolComment c) = 0 :=
          List.countP_eq_zero.mpr (by intro c hc; simpa using hall c hc)
        simp [h0, List.countP_cons, hnewtool]
      · intro c hc htool
        rcases List.mem_append.mp hc with hmem | hmem
        · rw [hall c hmem] at htool; cases htool
        · rcases List.mem_singleton.mp hmem with rfl
          rfl
      · simp
  | some cid =>
      rw [post_pr_comment_update comments summary repo run_id newId cid hfind]
      obtain ⟨c0, hc0find, hc0id⟩ := Option.map_eq_some'.mp (by
        unfold PrComments.findExistingCommentId at hfind
        exact hfind)
      obtain ⟨hc0tool, l1, l2, rfl, hl1⟩ := find?_decomp _ _ _ hc0find
      have hl2 : ∀ a ∈ l2, PrComments.isToolComment a = false := by
        have hsplit : PrComments.countToolComments (l1 ++ c0 :: l2) =
            l1.countP (fun c => PrComments.isToolComment c) + 1 +
              l2.countP (fun c => PrComments.isToolComment c) := by
          unfold PrComments.countToolComments
          rw [List.countP_append, List.countP_cons]
          simp [hc0tool]
          omega
        rw [hsplit] at hcount
        intro a ha
        have h0 : l2.countP (fun c => PrComments.isToolComment c) = 0 := by omega
        simpa using List.countP_eq_zero.mp h0 a ha
      have hidsplit := hids
      rw [List.map_append, List.map_cons] at hidsplit
      have hid1 : ∀ a ∈ l1, a.id ≠ c0.id := by
        intro a ha heq
        have : c0.id ∈ l1.map PrComments.Comment.id := heq ▸ List.mem_map_of_mem _ ha
        have hd := (List.nodup_append.mp hidsplit).2.2
        exact hd this (List.mem_cons_self _ _)
      have hid2 : ∀ a ∈ l2, a.id ≠ c0.id := by
        intro a ha heq
        have hnd : (c0.id :: l2.map PrComments.Comment.id).Nodup :=
          (List.nodup_append.mp hidsplit).2.1
        rcases List.nodup_cons.mp hnd with ⟨hnotin, -⟩
        exact hnotin (heq ▸ List.mem_map_of_mem _ ha)
      have hmapeq :
          (l1 ++ c0 :: l2).map
            (fun c => if c.id = cid then
              { c with body := PrComments.withArtifactsLink summary repo run_id } else c) =
          l1 ++ ⟨c0.id, PrComments.withArtifactsLink summary repo run_id⟩ :: l2 := by
        rw [List.map_append, List.map_cons]
        congr 1
        · refine (List.map_congr_left ?_).trans (List.map_id l1)
          intro a ha
          rw [if_neg (hc0id ▸ hid1 a ha)]
          rfl
        · congr 1
          · rw [if_pos hc0id]
          · refine (List.map_congr_left ?_).trans (List.map_id l2)
            intro a ha
            rw [if_neg (hc0id ▸ hid2 a ha)]
            rfl
      rw [hmapeq]
      refine ⟨?_, ?_, Or.inl ?_⟩
      · unfold PrComments.countToolComments
        rw [List.countP_append, List.countP_cons]
        have h1 : l1.countP (fun c => PrComments.isToolComment c) = 0 :=
          List.countP_eq_zero.mpr (by intro c hc; simpa using hl1 c hc)
        have h2 : l2.countP (fun c => PrComments.isToolComment c) = 0 :=
          List.countP_eq_zero.mpr (by intro c hc; simpa using hl2 c hc)
        have htool :
            PrComments.isToolComment
              ⟨c0.id, PrComments.withArtifactsLink summary repo run_id⟩ = true :=
          bodyHasSentinel_withArtifactsLink summary repo run_id hbody
        simp [h1, h2, htool]
      · intro c hc htool
        rcases List.mem_append.mp hc with hmem | hmem
        · rw [hl1 c hmem] at htool; cases htool
        · rcases List.mem_cons.mp hmem with rfl | hmem'
          · rfl
          · rw [hl2 c hmem'] at htool; cases htool
      · simp

theorem nodup_append_singleton {l : List Nat} {a : Nat} (h1 : l.Nodup) (h2 : a ∉ l) :
    (l ++ [a]).Nodup := by
  simp [List.nodup_append, h1, h2]

/-- **C10, counterexample.**  The claim says at most one tool-authored comment
exists on the PR after *any* successful run; but when two sentinel-prefixed
comments are already present (the protocol recognizes several historical header
variants), a successful run updates only the first and leaves both, so two
tool-authored comments remain. -/
theorem C10_publish_counterexample :
    PrComments.countToolComments
      (PrComments.post_pr_comment
        [⟨1, "# âœ… Visual Testing Report A"⟩, ⟨2, "# âœ… Visual Testing Report B"⟩]
        "# âœ… Visual Testing Report C" "org/repo" none 3) = 2 := by
  rfl

/-- **C10, amended.**  From a PR state with distinct comment ids, a fresh id for
the created comment and *at most one* tool-authored (sentinel-prefixed) comment,
a successful `post_pr_comment` run with a sentinel-prefixed body leaves exactly
one tool-authored comment (updating the existing one in place, else creating
one); running it twice with two such bodies leaves exactly one tool-authored
comment whose body is the second call's content (with the artifacts link
appended when a run id is present). -/
theorem C10_publish_upsert_amended (init : List PrComments.Comment)
    (b1 b2 repo : String) (rid : Option String) (id1 id2 : Nat)
    (hids : (init.map PrComments.Comment.id).Nodup)
    (hf1 : id1 ∉ init.map PrComments.Comment.id)
    (hcount : PrComments.countToolComments init ≤ 1)
    (hb1 : PrComments.bodyHasSentinel b1 = true)
    (hb2 : PrComments.bodyHasSentinel b2 = true) :
    PrComments.countToolComments (PrComments.post_pr_comment init b1 repo rid id1) = 1 ∧
    PrComments.countToolComments
      (PrComments.post_pr_comment (PrComments.post_pr_comment init b1 repo rid id1)
        b2 repo rid id2) = 1 ∧
    ∀ c ∈ PrComments.post_pr_comment (PrComments.post_pr_comment init b1 repo rid id1)
        b2 repo rid id2,
      PrComments.isToolComment c = true →
      c.body = PrComments.withArtifactsLink b2 repo rid := by
  obtain ⟨h1count, h1body, h1ids⟩ := post_upsert init b1 repo rid id1 hids hcount hb1
  have hids1 :
      ((PrComments.post_pr_comment init b1 repo rid id1).map PrComments.Comment.id).Nodup := by
    rcases h1ids with h | h
    · rw [h]; exact hids
    · rw [h]; exact nodup_append_singleton hids hf1
  obtain ⟨h2count, h2body, -⟩ :=
    post_upsert (PrComments.post_pr_comment init b1 repo rid id1) b2 repo rid id2
      hids1 (le_of_eq h1count) hb2
  exact ⟨h1count, h2count, h2body⟩

/-- **C10, amended, witness**: an empty PR; publishing an old report body and
then a new one (both carrying the tool's header) leaves exactly one
tool-authored comment, whose body is the second call's content. -/
theorem C10_publish_upsert_amended_witness :
    PrComments.countToolComments
      (PrComments.post_pr_comment
        (PrComments.post_pr_comment [] "# âœ… Visual Testing Report old" "org/repo" none 1)
        "# âœ… Visual Testing Report new" "org/repo" none 2) = 1 ∧
    (PrComments.Comment.mk 1 "# âœ… Visual Testing Report new").body =
      PrComments.withArtifactsLink "# âœ… Visual Testing Report new" "org/repo" none := by
  have h := C10_publish_upsert_amended [] "# âœ… Visual Testing Report old"
    "# âœ… Visual Testing Report new" "org/repo" none 1 2
    List.nodup_nil (by simp) (by decide) rfl rfl
  refine ⟨h.2.1, ?_⟩
  exact h.2.2 ⟨1, "# âœ… Visual Testing Report new"⟩ (List.mem_cons_self _ _) rfl

/-- **C6, witness**: two reports, a backend answering every chunk with success
and a `test.id` of `"T1"` — the second posted payload carries the second report,
`chunk_index = 1`, `total_chunks = 2` and the propagated `test_id`. -/
theorem C6_chunked_transport_witness :
    (Reporter.send_multi_page_report "token"
      (fun _ => { ok := true, status := 200, text := "ok", testId := some "T1" })
      { test_data := { pr_number := "123", repository := "test/repo", timestamp := "t" },
        reports := [[("page_path", jstr "/")], [("page_path", jstr "/about")]] }).1[1]? =
    some { reports := [[("page_path", jstr "/about")]],
           test_data := { pr_number := "123", repository := "test/repo", timestamp := "t" },
           chunk_index := 1, total_chunks := 2, test_id := some "T1" } := by
  have h := C6_chunked_transport "token"
    (fun _ => { ok := true, status := 200, text := "ok", testId := some "T1" })
    { test_data := { pr_number := "123", repository := "test/repo", timestamp := "t" },
      reports := [[("page_path", jstr "/")], [("page_path", jstr "/about")]] }
    (by decide) (fun _ => rfl)
  have h1 := h.2.2 1 (by decide)
  simpa using h1

/-- **C7, witness**: three reports, the backend rejects the second chunk — the
send stops after two posted chunks with the raised error, and the third chunk is
never sent. -/
theorem C7_fail_fast_witness :
    (Reporter.send_multi_page_report "token"
      (fun j => if j = 0 then { ok := true, status := 200, text := "ok", testId := none }
                else { ok := false, status := 500, text := "boom", testId := none })
      { test_data := { pr_number := "123", repository := "test/repo", timestamp := "t" },
        reports := [[("page_path", jstr "/a")], [("page_path", jstr "/b")],
                    [("page_path", jstr "/c")]] }).1.length = 2 ∧
    (Reporter.send_multi_page_report "token"
      (fun j => if j = 0 then { ok := true, status := 200, text := "ok", testId := none }
                else { ok := false, status := 500, text := "boom", testId := none })
      { test_data := { pr_number := "123", repository := "test/repo", timestamp := "t" },
        reports := [[("page_path", jstr "/a")], [("page_path", jstr "/b")],
                    [("page_path", jstr "/c")]] }).2 =
      .error "Failed to send multi-page report: 500 - boom" := by
  have h := C7_fail_fast "token"
    (fun j => if j = 0 then { ok := true, status := 200, text := "ok", testId := none }
              else { ok := false, status := 500, text := "boom", testId := none })
    { test_data := { pr_number := "123", repository := "test/repo", timestamp := "t" },
      reports := [[("page_path", jstr "/a")], [("page_path", jstr "/b")],
                  [("page_path", jstr "/c")]] }
    1 (by decide) (by decide) (by decide)
    (by intro j hj
        have : j = 0 := by omega
        subst this
        rfl)
  exact ⟨h.1, by rw [h.2]; rfl⟩

theorem getKeyD_congr (d1 d2 : JObj) (k : String) (v : JVal)
    (h : lookupKey d1 k = lookupKey d2 k) : getKeyD d1 k v = getKeyD d2 k v := by
  simp [getKeyD, h]

theorem exceptBind_ok {ε α β : Type} (a : α) (f : α → Except ε β) :
    (Except.ok a >>= f : Except ε β) = f a := rfl

theorem exceptBind_error {ε α β : Type} (e : ε) (f : α → Except ε β) :
    (Except.error e >>= f : Except ε β) = Except.error e := rfl

theorem lookup_fillMetadata (ctx : Vision.AnalysisContext) (d : JObj) (k : String)
    (h1 : k ≠ "id") (h2 : k ≠ "url") (h3 : k ≠ "preview_url") (h4 : k ≠ "pr_number")
    (h5 : k ≠ "repository") (h6 : k ≠ "timestamp") (h7 : k ≠ "created_at")
    (h8 : k ≠ "user_id") :
    lookupKey (Vision.fillMetadata ctx d) k = lookupKey d k := by
  simp only [Vision.fillMetadata]
  rw [lookupKey_setKey_ne _ _ _ _ h8, lookupKey_setKey_ne _ _ _ _ h7,
    lookupKey_setKey_ne _ _ _ _ h6, lookupKey_setKey_ne _ _ _ _ h5,
    lookupKey_setKey_ne _ _ _ _ h4, lookupKey_setKey_ne _ _ _ _ h3,
    lookupKey_setKey_ne _ _ _ _ h2, lookupKey_setKey_ne _ _ _ _ h1]

theorem lookup_mirrorStatus (d : JObj) (k : String) (h : k ≠ "status") :
    lookupKey (Vision.mirrorStatus d) k = lookupKey d k := by
  unfold Vision.mirrorStatus
  cases lookupKey d "status_enum" with
  | none => rfl
  | some v => exact lookupKey_setKey_ne _ _ _ _ h

/-- The `status_enum` block of `validateEnums` (vision.py lines 293-296). -/
def vStep1 (d : JObj) : JObj :=
  if ¬ Vision.enumMember Vision.valid_status_enum (getKeyD d "status_enum" jnull) then
    setKey (setKey d "status_enum" (jstr "warning")) "status" (jstr "warning")
  else d

/-- The `critical_issues_enum` block of `validateEnums` (lines 298-300). -/
def vStep2 (d : JObj) : JObj :=
  if ¬ Vision.enumMember Vision.valid_critical_issues_enum
      (getKeyD d "critical_issues_enum" jnull) then
    setKey d "critical_issues_enum" (jstr "other_issues")
  else d

/-- The `visual_changes_enum` block of `validateEnums` (lines 302-304). -/
def vStep3 (d : JObj) : JObj :=
  if ¬ Vision.enumMember Vision.valid_visual_changes_enum
      (getKeyD d "visual_changes_enum" jnull) then
    setKey d "visual_changes_enum" (jstr "minor")
  else d

/-- The `recommendation_enum` block of `validateEnums` (lines 306-308). -/
def vStep4 (d : JObj) : JObj :=
  if ¬ Vision.enumMember Vision.valid_recommendation_enum
      (getKeyD d "recommendation_enum" jnull) then
    setKey d "recommendation_enum" (jstr "review_required")
  else d

theorem validateEnums_eq_steps (d : JObj) :
    Vision.validateEnums d = vStep4 (vStep3 (vStep2 (vStep1 d))) := rfl

theorem vStep1_status_enum (d : JObj) :
    getKeyD (vStep1 d) "status_enum" jnull =
      (if ¬ Vision.enumMember Vision.valid_status_enum (getKeyD d "status_enum" jnull) then
        jstr "warning" else getKeyD d "status_enum" jnull) := by
  unfold vStep1
  split
  · rw [getKeyD_setKey_ne _ _ _ _ _ (by decide), getKeyD_setKey_self]
  · rfl

theorem vStep1_status (d : JObj) :
    getKeyD (vStep1 d) "status" jnull =
      (if ¬ Vision.enumMember Vision.valid_status_enum (getKeyD d "status_enum" jnull) then
        jstr "warning" else getKeyD d "status" jnull) := by
  unfold vStep1
  split
  · rw [getKeyD_setKey_self]
  · rfl

theorem vStep1_other (d : JObj) (k : String) (h1 : k ≠ "status_enum") (h2 : k ≠ "status") :
    lookupKey (vStep1 d) k = lookupKey d k := by
  unfold vStep1
  split
  · rw [lookupKey_setKey_ne _ _ _ _ h2, lookupKey_setKey_ne _ _ _ _ h1]
  · rfl

theorem vStep2_self (d : JObj) :
    getKeyD (vStep2 d) "critical_issues_enum" jnull =
      (if ¬ Vision.enumMember Vision.valid_critical_issues_enum
          (getKeyD d "critical_issues_enum" jnull) then
        jstr "other_issues" else getKeyD d "critical_issues_enum" jnull) := by
  unfold vStep2
  split
  · rw [getKeyD_setKey_self]
  · rfl

theorem vStep2_other (d : JObj) (k : String) (h : k ≠ "critical_issues_enum") :
    lookupKey (vStep2 d) k = lookupKey d k := by
  unfold vStep2
  split
  · rw [lookupKey_setKey_ne _ _ _ _ h]
  · rfl

theorem vStep3_self (d : JObj) :
    getKeyD (vStep3 d) "visual_changes_enum" jnull =
      (if ¬ Vision.enumMember Vision.valid_visual_changes_enum
          (getKeyD d "visual_changes_enum" jnull) then
        jstr "minor" else getKeyD d "visual_changes_enum" jnull) := by
  unfold vStep3
  split
  · rw [getKeyD_setKey_self]
  · rfl

theorem vStep3_other (d : JObj) (k : String) (h : k ≠ "visual_changes_enum") :
    lookupKey (vStep3 d) k = lookupKey d k := by
  unfold vStep3
  split
  · rw [lookupKey_setKey_ne _ _ _ _ h]
  · rfl

theorem vStep4_self (d : JObj) :
    getKeyD (vStep4 d) "recommendation_enum" jnull =
      (if ¬ Vision.enumMember Vision.valid_recommendation_enum
          (getKeyD d "recommendation_enum" jnull) then
        jstr "review_required" else getKeyD d "recommendation_enum" jnull) := by
  unfold vStep4
  split
  · rw [getKeyD_setKey_self]
  · rfl

theorem vStep4_other (d : JObj) (k : String) (h : k ≠ "recommendation_enum") :
    lookupKey (vStep4 d) k = lookupKey d k := by
  unfold vStep4
  split
  · rw [lookupKey_setKey_ne _ _ _ _ h]
  · rfl

theorem fixSection_valid (s : JObj) :
    Vision.validSectionStatus (getKeyD (Vision.fixSection s) "status" jnull) = true := by
  unfold Vision.fixSection
  split
  · rw [getKeyD_setKey_self]
    rfl
  · rename_i h
    simpa using h

theorem fixSectionVal_ok (a b : JVal) (h : Vision.fixSectionVal a = .ok b) :
    ∃ s, b = jobj (Vision.fixSection s) := by
  cases a <;> simp [Vision.fixSectionVal] at h
  exact ⟨_, h.symm⟩

/-- The pointwise section repair as it lands in the output array: a section dict
is repaired by `fixSection`.  (A non-dict element raises before any output is
produced, so its image never occurs; it is kept as the identity.) -/
def fixSectionElem : JVal → JVal
  | jobj s => jobj (Vision.fixSection s)
  | v => v

/-- A successful section loop returns exactly the input sections, each repaired
by `fixSection`. -/
theorem mapM_fixSectionVal_eq (xs : List JVal) :
    ∀ fixed, xs.mapM Vision.fixSectionVal = .ok fixed →
      fixed = xs.map fixSectionElem := by
  induction xs with
  | nil =>
      intro fixed h
      simp only [List.mapM_nil] at h
      cases h
      rfl
  | cons a t ih =>
      intro fixed h
      rw [List.mapM_cons] at h
      cases hfa : Vision.fixSectionVal a with
      | error e => rw [hfa] at h; cases h
      | ok b =>
          rw [hfa] at h
          cases hft : t.mapM Vision.fixSectionVal with
          | error e => rw [hft] at h; cases h
          | ok bs =>
              rw [hft] at h
              cases h
              have hb : b = fixSectionElem a := by
                cases a <;> simp [Vision.fixSectionVal] at hfa
                simp [fixSectionElem, ← hfa]
              simp [List.map_cons, hb, ih bs hft]

theorem mapM_fixSectionVal_ok (xs : List JVal) :
    ∀ fixed, xs.mapM Vision.fixSectionVal = .ok fixed →
      ∀ x ∈ fixed, ∃ s, x = jobj s ∧
        Vision.validSectionStatus (getKeyD s "status" jnull) = true := by
  induction xs with
  | nil =>
      intro fixed h x hx
      simp only [List.mapM_nil] at h
      cases h
      cases hx
  | cons a t ih =>
      intro fixed h x hx
      rw [List.mapM_cons] at h
      cases hfa : Vision.fixSectionVal a with
      | error e => rw [hfa] at h; cases h
      | ok b =>
          rw [hfa] at h
          cases hft : t.mapM Vision.fixSectionVal with
          | error e => rw [hft] at h; cases h
          | ok bs =>
              rw [hft] at h
              cases h
              rcases List.mem_cons.mp hx with rfl | hx'
              · obtain ⟨s, rfl⟩ := fixSectionVal_ok a x hfa
                exact ⟨Vision.fixSection s, rfl, fixSection_valid s⟩
              · exact ih bs hft x hx'

/-- What a successful `validateSections` run guarantees: every top-level key
other than `critical_issues` is untouched; every section in the output's
`critical_issues.sections` array is a dict with a valid (`Present`/`Missing`)
status; and when the input carries a `critical_issues.sections` array, the
output carries exactly that array with each section repaired by `fixSection`. -/
theorem validateSections_ok (d out : JObj) (h : Vision.validateSections d = .ok out) :
    (∀ k, k ≠ "critical_issues" → lookupKey out k = lookupKey d k) ∧
    (∀ cfs xs x, lookupKey out "critical_issues" = some (jobj cfs) →
      lookupKey cfs "sections" = some (jarr xs) → x ∈ xs →
      ∃ s, x = jobj s ∧ Vision.validSectionStatus (getKeyD s "status" jnull) = true) ∧
    (∀ cfs xs, lookupKey d "critical_issues" = some (jobj cfs) →
      lookupKey cfs "sections" = some (jarr xs) →
      lookupKey out "critical_issues" =
        some (jobj (setKey cfs "sections" (jarr (xs.map fixSectionElem))))) := by
  unfold Vision.validateSections at h
  split at h
  · rename_i cfs hci
    split at h
    · rename_i xs hsec
      cases hmap : xs.mapM Vision.fixSectionVal with
      | error e =>
          rw [hmap] at h
          cases h
      | ok fixed =>
          rw [hmap, exceptBind_ok] at h
          split at h
          · rename_i hcond
            cases h
            refine ⟨?_, ?_, ?_⟩
            · intro k hk
              exact lookupKey_setKey_ne _ _ _ _ hk
            · intro cfs' xs' x hci' hsec' hx
              rw [lookupKey_setKey_self] at hci'
              cases hci'
              rw [lookupKey_setKey_self] at hsec'
              cases hsec'
              exact mapM_fixSectionVal_ok xs fixed hmap x hx
            · intro cfs' xs' hci' hsec'
              have hgd : getKeyD d "critical_issues" (jobj []) = jobj cfs' := by
                simp [getKeyD, hci']
              rw [hci] at hgd
              cases hgd
              have hx2 : jarr xs = jarr xs' := by
                rw [← hsec]
                simp [getKeyD, hsec']
              cases hx2
              rw [lookupKey_setKey_self, mapM_fixSectionVal_eq _ fixed hmap]
          · rename_i hcond
            cases h
            refine ⟨fun k _ => rfl, ?_, ?_⟩
            · intro cfs' xs' x hci' hsec' hx
              exfalso
              apply hcond
              have hgd : getKeyD d "critical_issues" (jobj []) = jobj cfs' := by
                simp [getKeyD, hci']
              rw [hci] at hgd
              cases hgd
              exact ⟨by simp [hci'], by simp [hsec']⟩
            · intro cfs' xs' hci' hsec'
              exfalso
              apply hcond
              have hgd : getKeyD d "critical_issues" (jobj []) = jobj cfs' := by
                simp [getKeyD, hci']
              rw [hci] at hgd
              cases hgd
              exact ⟨by simp [hci'], by simp [hsec']⟩
    · rename_i hsec
      rcases hpy : Vision.pyIter (getKeyD cfs "sections" (jarr [])) with e | elems
      · rw [hpy, exceptBind_error] at h
        cases h
      · rw [hpy, exceptBind_ok] at h
        cases hmap : elems.mapM Vision.fixSectionVal with
        | error e =>
            rw [hmap, exceptBind_error] at h
            cases h
        | ok bs =>
            rw [hmap, exceptBind_ok] at h
            cases h
            refine ⟨fun k _ => rfl, ?_, ?_⟩
            · intro cfs' xs' x hci' hsec' hx
              exfalso
              have hgd : getKeyD d "critical_issues" (jobj []) = jobj cfs' := by
                simp [getKeyD, hci']
              rw [hci] at hgd
              cases hgd
              exact hsec xs' (by simp [getKeyD, hsec'])
            · intro cfs' xs' hci' hsec'
              exfalso
              have hgd : getKeyD d "critical_issues" (jobj []) = jobj cfs' := by
                simp [getKeyD, hci']
              rw [hci] at hgd
              cases hgd
              exact hsec xs' (by simp [getKeyD, hsec'])
  · cases h

/-- **C3.**  For every decoded oracle response that the validation completes on,
the repair is total: each of the four enum fields of the result is in its fixed
vocabulary (never an invalid value, never null); an invalid (or absent)
`status_enum` becomes `'warning'` and is mirrored into the legacy `status`
field, an invalid `critical_issues_enum` becomes `'other_issues'`, an invalid
`visual_changes_enum` becomes `'minor'`, an invalid `recommendation_enum`
becomes `'review_required'`; every section in the result's
`critical_issues.sections` carries a `'Present'`/`'Missing'` status; the
result's section array is exactly the input's with each section repaired by
`fixSection`; and `fixSection` rewrites a section whose status is outside
`'Present'`/`'Missing'` to have status exactly `'Present'` while leaving a
section with a valid status untouched. -/
theorem C3_enum_repair (ctx : Vision.AnalysisContext) (analysis_data out : JObj)
    (h : Vision.processDecodedAnalysis ctx analysis_data = .ok out) :
    (Vision.enumMember Vision.valid_status_enum (getKeyD out "status_enum" jnull) = true ∧
     Vision.enumMember Vision.valid_critical_issues_enum
       (getKeyD out "critical_issues_enum" jnull) = true ∧
     Vision.enumMember Vision.valid_visual_changes_enum
       (getKeyD out "visual_changes_enum" jnull) = true ∧
     Vision.enumMember Vision.valid_recommendation_enum
       (getKeyD out "recommendation_enum" jnull) = true) ∧
    (Vision.enumMember Vision.valid_status_enum
        (getKeyD analysis_data "status_enum" jnull) = false →
      getKeyD out "status_enum" jnull = jstr "warning" ∧
      getKeyD out "status" jnull = jstr "warning") ∧
    (Vision.enumMember Vision.valid_critical_issues_enum
        (getKeyD analysis_data "critical_issues_enum" jnull) = false →
      getKeyD out "critical_issues_enum" jnull = jstr "other_issues") ∧
    (Vision.enumMember Vision.valid_visual_changes_enum
        (getKeyD analysis_data "visual_changes_enum" jnull) = false →
      getKeyD out "visual_changes_enum" jnull = jstr "minor") ∧
    (Vision.enumMember Vision.valid_recommendation_enum
        (getKeyD analysis_data "recommendation_enum" jnull) = false →
      getKeyD out "recommendation_enum" jnull = jstr "review_required") ∧
    (∀ cfs xs x, lookupKey out "critical_issues" = some (jobj cfs) →
      lookupKey cfs "sections" = some (jarr xs) → x ∈ xs →
      ∃ s, x = jobj s ∧ Vision.validSectionStatus (getKeyD s "status" jnull) = true) ∧
    (∀ cfs xs, lookupKey analysis_data "critical_issues" = some (jobj cfs) →
      lookupKey cfs "sections" = some (jarr xs) →
      lookupKey out "critical_issues" =
        some (jobj (setKey cfs "sections" (jarr (xs.map fixSectionElem))))) ∧
    (∀ s, (Vision.validSectionStatus (getKeyD s "status" jnull) = false →
        Vision.fixSection s = setKey s "status" (jstr "Present") ∧
        getKeyD (Vision.fixSection s) "status" jnull = jstr "Present") ∧
      (Vision.validSectionStatus (getKeyD s "status" jnull) = true →
        Vision.fixSection s = s)) := by
  unfold Vision.processDecodedAnalysis at h
  obtain ⟨hpres, hsecs, hmap3⟩ := validateSections_ok _ out h
  have hCIpre : lookupKey (Vision.validateEnums
      (Vision.mirrorStatus (Vision.fillMetadata ctx analysis_data))) "critical_issues" =
      lookupKey analysis_data "critical_issues" := by
    rw [validateEnums_eq_steps,
      vStep4_other _ _ (by decide), vStep3_other _ _ (by decide),
      vStep2_other _ _ (by decide), vStep1_other _ _ (by decide) (by decide),
      lookup_mirrorStatus _ _ (by decide)]
    exact lookup_fillMetadata ctx analysis_data _ (by decide) (by decide) (by decide)
      (by decide) (by decide) (by decide) (by decide) (by decide)
  have hS : getKeyD (Vision.mirrorStatus (Vision.fillMetadata ctx analysis_data))
      "status_enum" jnull = getKeyD analysis_data "status_enum" jnull := by
    apply getKeyD_congr
    rw [lookup_mirrorStatus _ _ (by decide)]
    exact lookup_fillMetadata ctx analysis_data _ (by decide) (by decide) (by decide)
      (by decide) (by decide) (by decide) (by decide) (by decide)
  have hC : getKeyD (Vision.mirrorStatus (Vision.fillMetadata ctx analysis_data))
      "critical_issues_enum" jnull = getKeyD analysis_data "critical_issues_enum" jnull := by
    apply getKeyD_congr
    rw [lookup_mirrorStatus _ _ (by decide)]
    exact lookup_fillMetadata ctx analysis_data _ (by decide) (by decide) (by decide)
      (by decide) (by decide) (by decide) (by decide) (by decide)
  have hV : getKeyD (Vision.mirrorStatus (Vision.fillMetadata ctx analysis_data))
      "visual_changes_enum" jnull = getKeyD analysis_data "visual_changes_enum" jnull := by
    apply getKeyD_congr
    rw [lookup_mirrorStatus _ _ (by decide)]
    exact lookup_fillMetadata ctx analysis_data _ (by decide) (by decide) (by decide)
      (by decide) (by decide) (by decide) (by decide) (by decide)
  have hR : getKeyD (Vision.mirrorStatus (Vision.fillMetadata ctx analysis_data))
      "recommendation_enum" jnull = getKeyD analysis_data "recommendation_enum" jnull := by
    apply getKeyD_congr
    rw [lookup_mirrorStatus _ _ (by decide)]
    exact lookup_fillMetadata ctx analysis_data _ (by decide) (by decide) (by decide)
      (by decide) (by decide) (by decide) (by decide) (by decide)
  have vS : getKeyD out "status_enum" jnull =
      (if ¬ Vision.enumMember Vision.valid_status_enum
          (getKeyD analysis_data "status_enum" jnull) then
        jstr "warning" else getKeyD analysis_data "status_enum" jnull) := by
    rw [getKeyD_congr _ _ _ _ (hpres _ (by decide)), validateEnums_eq_steps,
      getKeyD_congr _ _ _ _ (vStep4_other _ _ (by decide)),
      getKeyD_congr _ _ _ _ (vStep3_other _ _ (by decide)),
      getKeyD_congr _ _ _ _ (vStep2_other _ _ (by decide)),
      vStep1_status_enum, hS]
  have vST : getKeyD out "status" jnull =
      (if ¬ Vision.enumMember Vision.valid_status_enum
          (getKeyD analysis_data "status_enum" jnull) then
        jstr "warning"
       else getKeyD (Vision.mirrorStatus (Vision.fillMetadata ctx analysis_data))
         "status" jnull) := by
    rw [getKeyD_congr _ _ _ _ (hpres _ (by decide)), validateEnums_eq_steps,
      getKeyD_congr _ _ _ _ (vStep4_other _ _ (by decide)),
      getKeyD_congr _ _ _ _ (vStep3_other _ _ (by decide)),
      getKeyD_congr _ _ _ _ (vStep2_other _ _ (by decide)),
      vStep1_status, hS]
  have vC : getKeyD out "critical_issues_enum" jnull =
      (if ¬ Vision.enumMember Vision.valid_critical_issues_enum
          (getKeyD analysis_data "critical_issues_enum" jnull) then
        jstr "other_issues" else getKeyD analysis_data "critical_issues_enum" jnull) := by
    rw [getKeyD_congr _ _ _ _ (hpres _ (by decide)), validateEnums_eq_steps,
      getKeyD_congr _ _ _ _ (vStep4_other _ _ (by decide)),
      getKeyD_congr _ _ _ _ (vStep3_other _ _ (by decide)),
      vStep2_self,
      getKeyD_congr _ _ _ _ (vStep1_other _ _ (by decide) (by decide)), hC]
  have vV : getKeyD out "visual_changes_enum" jnull =
      (if ¬ Vision.enumMember Vision.valid_visual_changes_enum
          (getKeyD analysis_data "visual_changes_enum" jnull) then
        jstr "minor" else getKeyD analysis_data "visual_changes_enum" jnull) := by
    rw [getKeyD_congr _ _ _ _ (hpres _ (by decide)), validateEnums_eq_steps,
      getKeyD_congr _ _ _ _ (vStep4_other _ _ (by decide)),
      vStep3_self,
      getKeyD_congr _ _ _ _ (vStep2_other _ _ (by decide)),
      getKeyD_congr _ _ _ _ (vStep1_other _ _ (by decide) (by decide)), hV]
  have vR : getKeyD out "recommendation_enum" jnull =
      (if ¬ Vision.enumMember Vision.valid_recommendation_enum
          (getKeyD analysis_data "recommendation_enum" jnull) then
        jstr "review_required" else getKeyD analysis_data "recommendation_enum" jnull) := by
    rw [getKeyD_congr _ _ _ _ (hpres _ (by decide)), validateEnums_eq_steps,
      vStep4_self,
      getKeyD_congr _ _ _ _ (vStep3_other _ _ (by decide)),
      getKeyD_congr _ _ _ _ (vStep2_other _ _ (by decide)),
      getKeyD_congr _ _ _ _ (vStep1_other _ _ (by decide) (by decide)), hR]
  refine ⟨⟨?_, ?_, ?_, ?_⟩, ?_, ?_, ?_, ?_, hsecs,
    fun cfs xs hci hsec => hmap3 cfs xs (by rw [hCIpre]; exact hci) hsec, ?_⟩
  · rw [vS]
    cases hm : Vision.enumMember Vision.valid_status_enum
        (getKeyD analysis_data "status_enum" jnull) with
    | true => simp [hm]
    | false => simp [hm]; rfl
  · rw [vC]
    cases hm : Vision.enumMember Vision.valid_critical_issues_enum
        (getKeyD analysis_data "critical_issues_enum" jnull) with
    | true => simp [hm]
    | false => simp [hm]; rfl
  · rw [vV]
    cases hm : Vision.enumMember Vision.valid_visual_changes_enum
        (getKeyD analysis_data "visual_changes_enum" jnull) with
    | true => simp [hm]
    | false => simp [hm]; rfl
  · rw [vR]
    cases hm : Vision.enumMember Vision.valid_recommendation_enum
        (getKeyD analysis_data "recommendation_enum" jnull) with
    | true => simp [hm]
    | false => simp [hm]; rfl
  · intro hm
    constructor
    · rw [vS, hm]
      simp
    · rw [vST, hm]
      simp
  · intro hm
    rw [vC, hm]
    simp
  · intro hm
    rw [vV, hm]
    simp
  · intro hm
    rw [vR, hm]
    simp
  · intro s
    constructor
    · intro hinv
      have hfix : Vision.fixSection s = setKey s "status" (jstr "Present") := by
        unfold Vision.fixSection
        rw [if_pos (by simp [hinv])]
      exact ⟨hfix, by rw [hfix, getKeyD_setKey_self]⟩
    · intro hval
      unfold Vision.fixSection
      rw [if_neg (by simp [hval])]

/-- The caller context of the repo's `test_analyze_images_with_vision_invalid_enum`
scenario. -/
def analysisCtx0 : Vision.AnalysisContext :=
  { id := "id0", base_url := "https://example.com",
    preview_url := "https://preview.example.com", pr_number := "123",
    repository := "test/repo", timestamp := "t0", created_at := "t0",
    user_id := some "user123" }

/-- A decoded oracle response with all four enum fields invalid and a section
with an unrecognized status. -/
def invalidEnumResponse : JObj :=
  [("status_enum", jstr "invalid_status"),
   ("critical_issues_enum", jstr "invalid_issues"),
   ("visual_changes_enum", jstr "invalid_changes"),
   ("recommendation_enum", jstr "invalid_recommendation"),
   ("critical_issues",
     jobj [("sections", jarr [jobj [("name", jstr "Header"), ("status", jstr "present")]]),
           ("summary", jstr "")])]

/-- The validated output of the pipeline on `invalidEnumResponse`. -/
def validatedOut0 : JObj :=
  match Vision.processDecodedAnalysis analysisCtx0 invalidEnumResponse with
  | .ok o => o
  | .error _ => []

/-- **C3, witness**: the invalid-enum scenario of the repo's own test — every
invalid enum is replaced by its documented default, with the `status` mirror,
and the section whose status was the unrecognized `'present'` comes out with
status exactly `'Present'`. -/
theorem C3_enum_repair_witness :
    getKeyD validatedOut0 "status_enum" jnull = jstr "warning" ∧
    getKeyD validatedOut0 "status" jnull = jstr "warning" ∧
    getKeyD validatedOut0 "critical_issues_enum" jnull = jstr "other_issues" ∧
    getKeyD validatedOut0 "visual_changes_enum" jnull = jstr "minor" ∧
    getKeyD validatedOut0 "recommendation_enum" jnull = jstr "review_required" ∧
    lookupKey validatedOut0 "critical_issues" =
      some (jobj [("sections",
                    jarr [jobj [("name", jstr "Header"), ("status", jstr "Present")]]),
                  ("summary", jstr "")]) := by
  have hok : Vision.processDecodedAnalysis analysisCtx0 invalidEnumResponse =
      .ok validatedOut0 := rfl
  have h := C3_enum_repair analysisCtx0 invalidEnumResponse validatedOut0 hok
  refine ⟨(h.2.1 rfl).1, (h.2.1 rfl).2, h.2.2.1 rfl, h.2.2.2.1 rfl, h.2.2.2.2.1 rfl, ?_⟩
  have hmapw := h.2.2.2.2.2.2.1
    [("sections", jarr [jobj [("name", jstr "Header"), ("status", jstr "present")]]),
     ("summary", jstr "")]
    [jobj [("name", jstr "Header"), ("status", jstr "present")]] rfl rfl
  rw [hmapw]
  rfl

end Claims
